import Mathlib

/-!
# Verification of the Chen ER diagram layout/render engine

Shallow embedding of the rendering module (`useChenLayout`): style
normalization, text-width estimation, node sizing, envelope computation,
backbone layout (connected components + breadth-first depth assignment +
level stacking), radial attribute placement, scene composition and SVG
serialization.

Modelling conventions:
* JavaScript numbers are modelled by exact rationals `ℚ`.  Decimal literals
  of the source (`0.62`, `2.8`, …) are modelled by the corresponding exact
  decimal rationals; `Math.PI` is modelled by the exact value of the IEEE
  double `Math.PI`.
* The special value `NaN` cannot flow through `ℚ`; the two places whose
  specified behaviour involves `NaN` (global style normalization and the
  `|| fallback` margin defaulting) are additionally modelled over `JNum`,
  an explicit `nan`-or-rational carrier, by `normalizeStyleJ` and `jsOrJ`.
* `Math.cos`, `Math.sin` and `Math.atan2` are implementation-defined
  approximations of the real functions; they are modelled by the fixed
  computable rational approximations in `jsTrig` (truncated Taylor series),
  and the serializer/scene pipeline is parameterized over such a `Trig`
  record.  No verified claim depends on the numeric values of these
  functions.
* JavaScript `Map`/`Set` (insertion-ordered) are modelled by association
  lists with `setAssoc`/`addToSet`, which preserve first-insertion key order
  and overwrite values like `Map.set`.
* JavaScript's stable `Array.prototype.sort(cmp)` is modelled by the stable
  insertion sort `jsSort` (comparator returns a number; `a` is placed before
  `b` iff `cmp a b < 0`, ties keep original order).
* `String.prototype.localeCompare(·, "zh-Hans-CN")` is modelled by
  code-point comparison `localeCompareZh`, which agrees with the locale
  collation on the same-case ASCII identifiers appearing in this
  development.
-/

/-- Exact rational value of the IEEE-754 double `Math.PI`. -/
def jsPI : ℚ := mkRat 884279719003555 281474976710656

/-- `Math.ceil` (result is again a JS number, hence `ℚ`-valued). -/
def jsCeil (q : ℚ) : ℚ := (⌈q⌉ : ℚ)

/-- `Math.floor`. -/
def jsFloor (q : ℚ) : ℚ := (⌊q⌋ : ℚ)

/-- `Math.round` (JavaScript rounds half-way cases toward `+∞`). -/
def jsRound (q : ℚ) : ℚ := jsFloor (q + 0.5)

/-- Truncation toward zero, as used by the JS `%` remainder. -/
def ratTrunc (q : ℚ) : Int := if 0 ≤ q then ⌊q⌋ else ⌈q⌉

/-- The JS `%` float remainder: `a - b * trunc (a / b)` (sign of the dividend). -/
def jsMod (a b : ℚ) : ℚ := a - b * (ratTrunc (a / b) : ℚ)

/-- The JS `x || d` idiom on numbers: `0` (and `NaN`, see `jsOrJ`) falls back to `d`. -/
def jsOr (q d : ℚ) : ℚ := if q = 0 then d else q

/-- The JS `s || d` idiom on strings: the empty string falls back to `d`. -/
def jsOrStr (s d : String) : String := if s = "" then d else s

/-- A JavaScript number: either `NaN` or an actual (rational) value. -/
inductive JNum where
  | nan : JNum
  | num (q : ℚ) : JNum
deriving DecidableEq

/-- The JS `x || d` idiom on a possibly-`NaN` number: `NaN` and `0` are falsy. -/
def jsOrJ (x : JNum) (d : ℚ) : ℚ :=
  match x with
  | JNum.nan => d
  | JNum.num q => if q = 0 then d else q

/-- JS number-to-string conversion as used by template interpolation.
It is exact for integral values (the only values inspected by the verified
claims); non-integral values, which JS would print as decimal expansions of
the underlying double, are rendered as `num/den`. -/
def numToString (q : ℚ) : String :=
  if q.den = 1 then toString q.num else toString q.num ++ "/" ++ toString q.den

/-- `Number.prototype.toFixed(2)`, modelled for the nonnegative values the
engine feeds it (stroke widths and font sizes). -/
def toFixed2 (q : ℚ) : String :=
  let n : Int := (jsRound (q * 100)).num
  let sign := if n < 0 then "-" else ""
  let a := n.natAbs
  let frac := a % 100
  let fracStr := if frac < 10 then "0" ++ toString frac else toString frac
  sign ++ toString (a / 100) ++ "." ++ fracStr

/-- First-match lookup in an association list (JS `Map.get`; keys are unique
by construction of `setAssoc`). -/
def getAssoc {κ α : Type} [DecidableEq κ] : List (κ × α) → κ → Option α
  | [], _ => none
  | (k, v) :: rest, key => if k = key then some v else getAssoc rest key

/-- JS `Map.set`: overwrite the value at an existing key (keeping its
insertion position) or append a new key at the end. -/
def setAssoc {κ α : Type} [DecidableEq κ] : List (κ × α) → κ → α → List (κ × α)
  | [], key, v => [(key, v)]
  | (k, w) :: rest, key, v =>
    if k = key then (key, v) :: rest else (k, w) :: setAssoc rest key v

/-- `adjacency.get(k)?.add(v)`: append `v` to the insertion-ordered set at
key `k` if the key exists and `v` is not already present; no-op otherwise. -/
def addToSet (adj : List (String × List String)) (k v : String) :
    List (String × List String) :=
  match getAssoc adj k with
  | none => adj
  | some s => if s.contains v then adj else setAssoc adj k (s ++ [v])

/-- Deduplication keeping the first occurrence (JS `Map` key iteration
order for the `levels` map). -/
def dedupFirst (l : List Nat) : List Nat :=
  l.foldl (fun acc d => if acc.contains d then acc else acc ++ [d]) []

/-- Insert `x` into a list before the first element `y` with `cmp x y ≤ 0`
(stable-insertion step; `x` originally precedes every element of the list). -/
def insertBy {α : Type} (cmp : α → α → ℚ) (x : α) : List α → List α
  | [] => [x]
  | y :: ys => if cmp x y ≤ 0 then x :: y :: ys else y :: insertBy cmp x ys

/-- Stable sort with a JS-style numeric comparator (`cmp a b < 0` means `a`
comes first; ties keep the original order), modelling the stable
`Array.prototype.sort`. -/
def jsSort {α : Type} (cmp : α → α → ℚ) : List α → List α
  | [] => []
  | x :: xs => insertBy cmp x (jsSort cmp xs)

/-- `Math.max(...)` of a spread list.  The empty case (which yields
`-Infinity` in JS) is unreachable at every call site, because levels and
components are nonempty by construction; it is modelled as `0`. -/
def jsMaxList : List ℚ → ℚ
  | [] => 0
  | x :: xs => xs.foldl max x

/-- `Math.min(...)` of a spread list; empty case unreachable (see `jsMaxList`). -/
def jsMinList : List ℚ → ℚ
  | [] => 0
  | x :: xs => xs.foldl min x

/-- Code-point comparison of strings; models
`String.prototype.localeCompare(·, "zh-Hans-CN")`, with which it agrees on
the same-case ASCII identifiers used in this development. -/
def cmpCharList : List Char → List Char → ℚ
  | [], [] => 0
  | [], _ :: _ => -1
  | _ :: _, [] => 1
  | a :: as, b :: bs => if a < b then -1 else if b < a then 1 else cmpCharList as bs

/-- Locale-aware string comparison used for within-level ordering. -/
def localeCompareZh (a b : String) : ℚ := cmpCharList a.data b.data

/- ## Data model -/

/-- Global style knobs (all JS numbers). -/
structure ChenStyle where
  entityScale : ℚ
  relationScale : ℚ
  ellipseScale : ℚ
  hGap : ℚ
  vGap : ℚ
  lineWidth : ℚ
  fontScale : ℚ

/-- `Partial<ChenStyle>`: each field possibly absent. -/
structure PartialChenStyle where
  entityScale : Option ℚ := none
  relationScale : Option ℚ := none
  ellipseScale : Option ℚ := none
  hGap : Option ℚ := none
  vGap : Option ℚ := none
  lineWidth : Option ℚ := none
  fontScale : Option ℚ := none

/-- A fully populated style over possibly-`NaN` numbers. -/
structure ChenStyleJ where
  entityScale : JNum
  relationScale : JNum
  ellipseScale : JNum
  hGap : JNum
  vGap : JNum
  lineWidth : JNum
  fontScale : JNum
deriving DecidableEq

/-- `Partial<ChenStyle>` over possibly-`NaN` numbers. -/
structure PartialChenStyleJ where
  entityScale : Option JNum := none
  relationScale : Option JNum := none
  ellipseScale : Option JNum := none
  hGap : Option JNum := none
  vGap : Option JNum := none
  lineWidth : Option JNum := none
  fontScale : Option JNum := none

structure ChenAttribute where
  id : String
  name : String
  isPrimary : Bool

structure ChenEntity where
  id : String
  name : String
  attributes : List ChenAttribute

structure ChenRelationshipEndpoint where
  entityId : String
  cardinality : String

structure ChenRelationship where
  id : String
  name : String
  endpoints : List ChenRelationshipEndpoint
  attributes : List ChenAttribute

structure ChenModel where
  entities : List ChenEntity
  relationships : List ChenRelationship

structure ChenNodeStyle where
  scale : ℚ
  offsetX : ℚ
  offsetY : ℚ
  strokeWidth : ℚ
  fill : String
  textColor : String

structure PartialChenNodeStyle where
  scale : Option ℚ := none
  offsetX : Option ℚ := none
  offsetY : Option ℚ := none
  strokeWidth : Option ℚ := none
  fill : Option String := none
  textColor : Option String := none

/-- `Record<string, Partial<ChenNodeStyle>>` as an association list. -/
def ChenNodeStyleOverrides : Type := List (String × PartialChenNodeStyle)

structure ChenRenderOptions where
  nodeOverrides : Option ChenNodeStyleOverrides := none
  selectedNodeId : Option String := none

inductive NodeType where
  | entity : NodeType
  | relationship : NodeType
deriving DecidableEq

structure BackboneNode where
  id : String
  type : NodeType
  name : String
  width : ℚ
  height : ℚ
  attributes : List ChenAttribute
  endpoints : List ChenRelationshipEndpoint
  nodeStyle : ChenNodeStyle
  x : ℚ
  y : ℚ
  orbitRadius : ℚ
  envelopeX : ℚ
  envelopeY : ℚ

structure AttributeNode where
  id : String
  parentId : String
  x : ℚ
  y : ℚ
  rx : ℚ
  ry : ℚ
  label : String
  isPrimary : Bool

structure EntityRelationshipEdge where
  entityId : String
  relationshipId : String
  cardinality : String
deriving DecidableEq

structure AttributeLinkEdge where
  fromId : String
  toId : String

inductive SceneNode where
  | backbone (b : BackboneNode) : SceneNode
  | attr (a : AttributeNode) : SceneNode

inductive SceneEdge where
  | er (e : EntityRelationshipEdge) : SceneEdge
  | attrLink (e : AttributeLinkEdge) : SceneEdge

structure CardinalityLabel where
  text : String
  x : ℚ
  y : ℚ

structure Scene where
  nodes : List SceneNode
  edges : List SceneEdge
  cardinalityLabels : List CardinalityLabel
  width : ℚ
  height : ℚ

def SceneNode.nodeId : SceneNode → String
  | SceneNode.backbone b => b.id
  | SceneNode.attr a => a.id

def SceneNode.posX : SceneNode → ℚ
  | SceneNode.backbone b => b.x
  | SceneNode.attr a => a.x

def SceneNode.posY : SceneNode → ℚ
  | SceneNode.backbone b => b.y
  | SceneNode.attr a => a.y

/- ## Defaults and style normalization -/

def DEFAULT_CHEN_STYLE : ChenStyle :=
  { entityScale := 1
    relationScale := 1.25
    ellipseScale := 1
    hGap := 200
    vGap := 125
    lineWidth := 2.8
    fontScale := 1 }

def DEFAULT_CHEN_NODE_STYLE : ChenNodeStyle :=
  { scale := 1
    offsetX := 0
    offsetY := 0
    strokeWidth := 0
    fill := "#ffffff"
    textColor := "#111111" }

/-- `normalizeStyle` on `NaN`-free inputs: `Number(style.f ?? DEFAULT.f)`
defaults exactly when the field is absent (`undefined`/`null`); present
numbers pass through `Number` unchanged. -/
def normalizeStyle (style : PartialChenStyle) : ChenStyle :=
  { entityScale := style.entityScale.getD DEFAULT_CHEN_STYLE.entityScale
    relationScale := style.relationScale.getD DEFAULT_CHEN_STYLE.relationScale
    ellipseScale := style.ellipseScale.getD DEFAULT_CHEN_STYLE.ellipseScale
    hGap := style.hGap.getD DEFAULT_CHEN_STYLE.hGap
    vGap := style.vGap.getD DEFAULT_CHEN_STYLE.vGap
    lineWidth := style.lineWidth.getD DEFAULT_CHEN_STYLE.lineWidth
    fontScale := style.fontScale.getD DEFAULT_CHEN_STYLE.fontScale }

/-- `normalizeStyle` over possibly-`NaN` numbers: `Number` on a JS number is
the identity (in particular `Number(NaN) = NaN`), and `??` falls back only on
absent fields, so a present `NaN` is returned as `NaN`. -/
def normalizeStyleJ (style : PartialChenStyleJ) : ChenStyleJ :=
  { entityScale := style.entityScale.getD (JNum.num DEFAULT_CHEN_STYLE.entityScale)
    relationScale := style.relationScale.getD (JNum.num DEFAULT_CHEN_STYLE.relationScale)
    ellipseScale := style.ellipseScale.getD (JNum.num DEFAULT_CHEN_STYLE.ellipseScale)
    hGap := style.hGap.getD (JNum.num DEFAULT_CHEN_STYLE.hGap)
    vGap := style.vGap.getD (JNum.num DEFAULT_CHEN_STYLE.vGap)
    lineWidth := style.lineWidth.getD (JNum.num DEFAULT_CHEN_STYLE.lineWidth)
    fontScale := style.fontScale.getD (JNum.num DEFAULT_CHEN_STYLE.fontScale) }

def isHexDigit (c : Char) : Bool :=
  (Char.ofNat 48 ≤ c && c ≤ Char.ofNat 57) ||
  (Char.ofNat 97 ≤ c && c ≤ Char.ofNat 102) ||
  (Char.ofNat 65 ≤ c && c ≤ Char.ofNat 70)

/-- The regex `/^#([0-9a-fA-F]{3}|[0-9a-fA-F]{6})$/`. -/
def isHexColor (s : String) : Bool :=
  match s.data with
  | [] => false
  | c :: rest =>
    c = Char.ofNat 35 && (rest.length = 3 || rest.length = 6) && rest.all isHexDigit

def normalizeColor (rawColor fallback : String) : String :=
  let color := (jsOrStr rawColor "").trim
  if isHexColor color then color else fallback

def normalizeNodeStyle (style : Option PartialChenNodeStyle) : ChenNodeStyle :=
  { scale := max 0.6 (min 2.8 ((style.bind (·.scale)).getD DEFAULT_CHEN_NODE_STYLE.scale))
    offsetX := max (-1400) (min 1400 ((style.bind (·.offsetX)).getD DEFAULT_CHEN_NODE_STYLE.offsetX))
    offsetY := max (-1400) (min 1400 ((style.bind (·.offsetY)).getD DEFAULT_CHEN_NODE_STYLE.offsetY))
    strokeWidth := max 0 (min 12 ((style.bind (·.strokeWidth)).getD DEFAULT_CHEN_NODE_STYLE.strokeWidth))
    fill := normalizeColor ((style.bind (·.fill)).getD DEFAULT_CHEN_NODE_STYLE.fill) DEFAULT_CHEN_NODE_STYLE.fill
    textColor := normalizeColor ((style.bind (·.textColor)).getD DEFAULT_CHEN_NODE_STYLE.textColor) DEFAULT_CHEN_NODE_STYLE.textColor }

/- ## Markup escaping -/

/-- One `replaceAll` pass for a single-character pattern. -/
def replaceAllChar (c : Char) (rep : List Char) : List Char → List Char
  | [] => []
  | x :: xs => (if x = c then rep else [x]) ++ replaceAllChar c rep xs

/-- `escapeXml`: sequential `replaceAll` passes, `&` first, then `<`, `>`,
`"`, `'`. -/
def escapeXml (text : String) : String :=
  String.mk (replaceAllChar (Char.ofNat 39) ("&apos;".data)
    (replaceAllChar (Char.ofNat 34) ("&quot;".data)
      (replaceAllChar (Char.ofNat 62) ("&gt;".data)
        (replaceAllChar (Char.ofNat 60) ("&lt;".data)
          (replaceAllChar (Char.ofNat 38) ("&amp;".data) text.data)))))

/- ## Sizing estimator and envelope calculator -/

/-- Per-character width classification: CJK, uppercase Latin,
lowercase/digit/underscore, other. -/
def charWidth (fontSize : ℚ) (ch : Char) : ℚ :=
  if 0x4e00 ≤ ch.toNat ∧ ch.toNat ≤ 0x9fff then fontSize
  else if Char.ofNat 65 ≤ ch ∧ ch ≤ Char.ofNat 90 then fontSize * 0.66
  else if (Char.ofNat 97 ≤ ch ∧ ch ≤ Char.ofNat 122) ∨
      (Char.ofNat 48 ≤ ch ∧ ch ≤ Char.ofNat 57) ∨ ch = Char.ofNat 95 then fontSize * 0.58
  else fontSize * 0.5

def estimateTextWidth (text : String) (fontSize : ℚ := 16) : ℚ :=
  let width := text.data.foldl (fun w ch => w + charWidth fontSize ch) 0
  max width (fontSize * 1.2)

structure NodeSize where
  width : ℚ
  height : ℚ

def nodeSizeForEntity (name : String) (style : ChenStyle) (nodeScale : ℚ := 1) : NodeSize :=
  let scale := style.entityScale * nodeScale
  let fontScale := style.fontScale
  { width := max (120 * scale) (jsCeil ((estimateTextWidth name (18 * fontScale) + 40) * scale))
    height := jsCeil (58 * scale) }

def nodeSizeForRelationship (name : String) (style : ChenStyle) (nodeScale : ℚ := 1) : NodeSize :=
  let scale := style.relationScale * nodeScale
  let fontScale := style.fontScale
  let width := max (96 * scale) (jsCeil ((estimateTextWidth name (16 * fontScale) + 44) * scale))
  { width := width
    height := max (64 * scale) (jsCeil (width * 0.58)) }

structure AttrSize where
  rx : ℚ
  ry : ℚ
  label : String

def nodeSizeForAttribute (name : String) (isPrimary : Bool) (style : ChenStyle) : AttrSize :=
  let label := if isPrimary then name ++ " (PK)" else name
  let ellipseScale := style.ellipseScale
  let fontScale := style.fontScale
  { rx := max (44 * ellipseScale) (jsCeil ((estimateTextWidth label (15 * fontScale) / 2 + 18) * ellipseScale))
    ry := jsCeil (28 * ellipseScale)
    label := label }

structure EnvelopeResult where
  orbitRadius : ℚ
  envelopeX : ℚ
  envelopeY : ℚ

/-- Largest attribute-ellipse half-width of a node's attributes (the
`maxAttrRx` accumulation loop). -/
def maxAttrRx (attrs : List ChenAttribute) (style : ChenStyle) : ℚ :=
  attrs.foldl (fun m attr => max m (nodeSizeForAttribute attr.name attr.isPrimary style).rx) 0

/-- Largest attribute-ellipse half-height (the `maxAttrRy` loop). -/
def maxAttrRy (attrs : List ChenAttribute) (style : ChenStyle) : ℚ :=
  attrs.foldl (fun m attr => max m (nodeSizeForAttribute attr.name attr.isPrimary style).ry) 0

/-- The orbit radius: half-extent based margin, growing (capped) with the
attribute count when attributes exist, else the tighter empty-node bound. -/
def orbitRadiusOf (node : BackboneNode) (style : ChenStyle) : ℚ :=
  if node.attributes.length > 0 then
    max node.width node.height * 0.62 + 88 * style.ellipseScale +
      min 100 ((node.attributes.length * 8 : Nat) : ℚ) * style.ellipseScale
  else
    max node.width node.height * 0.5 + 26

def computeNodeEnvelope (node : BackboneNode) (style : ChenStyle) : EnvelopeResult :=
  { orbitRadius := orbitRadiusOf node style
    envelopeX := max (node.width / 2 + 24)
      (orbitRadiusOf node style + maxAttrRx node.attributes style + 16)
    envelopeY := max (node.height / 2 + 24)
      (orbitRadiusOf node style + maxAttrRy node.attributes style + 16) }

/- ## Trigonometry model -/

/-- The trigonometric primitives the placement engine consumes.  JavaScript's
`Math.cos`/`Math.sin`/`Math.atan2` are deterministic, implementation-defined
approximations of the real functions; the pipeline is parameterized over any
such fixed implementation. -/
structure Trig where
  cos : ℚ → ℚ
  sin : ℚ → ℚ
  atan2 : ℚ → ℚ → ℚ

/-- Rounding to 15 decimal digits, mimicking the finite precision of IEEE
doubles so the modelled trig values stay compact rationals. -/
def roundQ15 (q : ℚ) : ℚ := jsFloor (q * 1000000000000000 + 0.5) / 1000000000000000

/-- Truncated Taylor approximation of cosine, rounded to 15 decimal digits
(model of `Math.cos`). -/
def jsCos (x : ℚ) : ℚ :=
  let x2 := x * x
  let x4 := x2 * x2
  let x6 := x4 * x2
  let x8 := x4 * x4
  let x10 := x8 * x2
  roundQ15 (1 - x2 / 2 + x4 / 24 - x6 / 720 + x8 / 40320 - x10 / 3628800)

/-- Truncated Taylor approximation of sine, rounded to 15 decimal digits
(model of `Math.sin`). -/
def jsSin (x : ℚ) : ℚ :=
  let x2 := x * x
  let x3 := x2 * x
  let x5 := x3 * x2
  let x7 := x5 * x2
  let x9 := x7 * x2
  let x11 := x9 * x2
  roundQ15 (x - x3 / 6 + x5 / 120 - x7 / 5040 + x9 / 362880 - x11 / 39916800)

/-- Truncated Taylor approximation of arctangent. -/
def jsAtan (x : ℚ) : ℚ :=
  let x2 := x * x
  let x3 := x2 * x
  let x5 := x3 * x2
  let x7 := x5 * x2
  x - x3 / 3 + x5 / 5 - x7 / 7

/-- Piecewise model of `Math.atan2`, rounded to 15 decimal digits.  No
verified claim depends on its values (it only scores candidate angles). -/
def jsAtan2 (y x : ℚ) : ℚ :=
  roundQ15 (if 0 < x then jsAtan (y / x)
    else if x < 0 then (if 0 ≤ y then jsAtan (y / x) + jsPI else jsAtan (y / x) - jsPI)
    else if 0 < y then jsPI / 2
    else if y < 0 then -(jsPI / 2)
    else 0)

/-- The fixed trig implementation used to close concrete statements. -/
def jsTrig : Trig :=
  { cos := jsCos, sin := jsSin, atan2 := jsAtan2 }

/- ## Attribute angle selection -/

def normalizeAngle (angle : ℚ) : ℚ :=
  let value := jsMod angle (jsPI * 2)
  if value < 0 then value + jsPI * 2 else value

def angularDistance (a b : ℚ) : ℚ :=
  let diff := |normalizeAngle a - normalizeAngle b|
  min diff (jsPI * 2 - diff)

def chooseAttributeAngles (count : Nat) (blockedAngles : List ℚ) : List ℚ :=
  if count = 0 then []
  else
    let totalCandidates := max 24 (count * 6)
    let candidates := (List.range totalCandidates).map (fun i =>
      let angle := -jsPI / 2 + (i : ℚ) * jsPI * 2 / (totalCandidates : ℚ)
      let score := blockedAngles.foldl (fun s blocked => min s (angularDistance angle blocked))
        (if blockedAngles.length > 0 then jsPI else jsPI * 0.7)
      (angle, score))
    let sorted := jsSort (fun a b => b.2 - a.2) candidates
    let minGap := min (jsPI * 0.95) (max 0.52 (jsPI * 2 / ((count : ℚ) + 2) * 0.92))
    let selected := sorted.foldl (fun (sel : List ℚ) candidate =>
      if sel.length = count then sel
      else if sel.all (fun picked => decide (minGap ≤ angularDistance picked candidate.1)) then
        sel ++ [candidate.1]
      else sel) []
    if selected.length < count then
      let fallbackStep := jsPI * 2 / (count : ℚ)
      selected ++ ((List.range count).drop selected.length).map
        (fun i => -jsPI / 2 + (i : ℚ) * fallbackStep)
    else selected

/- ## Backbone node construction and adjacency -/

def mkEntityNode (style : ChenStyle) (nodeOverrides : List (String × PartialChenNodeStyle))
    (e : ChenEntity) : BackboneNode :=
  let nodeStyle := normalizeNodeStyle (getAssoc nodeOverrides e.id)
  let size := nodeSizeForEntity e.name style nodeStyle.scale
  let node : BackboneNode :=
    { id := e.id, type := NodeType.entity, name := e.name
      width := size.width, height := size.height
      attributes := e.attributes, endpoints := []
      nodeStyle := nodeStyle, x := 0, y := 0
      orbitRadius := 0, envelopeX := 0, envelopeY := 0 }
  let env := computeNodeEnvelope node style
  { node with orbitRadius := env.orbitRadius, envelopeX := env.envelopeX, envelopeY := env.envelopeY }

def mkRelationshipNode (style : ChenStyle) (nodeOverrides : List (String × PartialChenNodeStyle))
    (r : ChenRelationship) : BackboneNode :=
  let nodeStyle := normalizeNodeStyle (getAssoc nodeOverrides r.id)
  let size := nodeSizeForRelationship r.name style nodeStyle.scale
  let node : BackboneNode :=
    { id := r.id, type := NodeType.relationship, name := r.name
      width := size.width, height := size.height
      attributes := r.attributes, endpoints := r.endpoints
      nodeStyle := nodeStyle, x := 0, y := 0
      orbitRadius := 0, envelopeX := 0, envelopeY := 0 }
  let env := computeNodeEnvelope node style
  { node with orbitRadius := env.orbitRadius, envelopeX := env.envelopeX, envelopeY := env.envelopeY }

/-- One node per entity followed by one per relationship, in model order. -/
def initialBackboneNodes (model : ChenModel) (style : ChenStyle)
    (nodeOverrides : List (String × PartialChenNodeStyle)) : List BackboneNode :=
  model.entities.map (mkEntityNode style nodeOverrides) ++
    model.relationships.map (mkRelationshipNode style nodeOverrides)

def initialNodeById (nodes : List BackboneNode) : List (String × BackboneNode) :=
  nodes.foldl (fun m n => setAssoc m n.id n) []

def initialAdjacency (nodes : List BackboneNode) : List (String × List String) :=
  nodes.foldl (fun m n => setAssoc m n.id []) []

/-- The second relationship pass: connect each relationship to each endpoint
whose `entityId` resolves in `nodeById`, recording the connector edge with
its cardinality (`"N"` when absent/empty). -/
def buildAdjacencyEdges (model : ChenModel) (nodeById : List (String × BackboneNode))
    (adj0 : List (String × List String)) :
    List (String × List String) × List EntityRelationshipEdge :=
  model.relationships.foldl (fun acc rel =>
    match getAssoc nodeById rel.id with
    | none => acc
    | some relNode =>
      rel.endpoints.foldl (fun acc2 endpoint =>
        match getAssoc nodeById endpoint.entityId with
        | none => acc2
        | some entityNode =>
          (addToSet (addToSet acc2.1 relNode.id entityNode.id) entityNode.id relNode.id,
           acc2.2 ++ [{ entityId := entityNode.id, relationshipId := relNode.id
                        cardinality := jsOrStr endpoint.cardinality "N" }])) acc) (adj0, [])

/- ## Breadth-first traversal -/

/-- Inner neighbor loop of both breadth-first walks: mark each not-yet-seen
neighbor (at depth `d + 1`) before enqueueing it. -/
def bfsStepNeighbors (seen : List (String × Nat)) (d : Nat) (neighbors : List String) :
    List (String × Nat) × List String :=
  neighbors.foldl (fun acc n =>
    if (getAssoc acc.1 n).isSome then acc
    else (acc.1 ++ [(n, d + 1)], acc.2 ++ [n])) (seen, [])

/-- Fueled breadth-first queue processing shared by the connected-component
decomposition and the depth-assigning walk.  Returns the dequeue order and
the final seen-map (ids to depths), or `none` on fuel exhaustion.  A dequeued
empty-string id is falsy in JS (`if (!id) continue`) and is skipped without
being recorded or explored. -/
def bfsAux (adjacency : List (String × List String)) :
    Nat → List (String × Nat) → List String → List String →
    Option (List String × List (String × Nat))
  | _, seen, [], order => some (order, seen)
  | 0, _, _ :: _, _ => none
  | fuel + 1, seen, id :: queue, order =>
    if id = "" then bfsAux adjacency fuel seen queue order
    else
      let d := (getAssoc seen id).getD 0
      let step := bfsStepNeighbors seen d ((getAssoc adjacency id).getD [])
      bfsAux adjacency fuel step.1 (queue ++ step.2) (order ++ [id])

/-- All ids that can ever be enqueued by exploration (the adjacency values). -/
def adjUniverse (adjacency : List (String × List String)) : List String :=
  (adjacency.foldl (fun acc p => acc ++ p.2) []).dedup

/-- Number of universe ids not yet seen. -/
def countUnseen (adjacency : List (String × List String)) (seen : List (String × Nat)) : Nat :=
  ((adjUniverse adjacency).filter (fun n => (getAssoc seen n).isNone)).length

/-- The breadth-first walk with its sufficient fuel: each iteration dequeues
one id and every id it enqueues is freshly marked seen, so
`queue.length + countUnseen` strictly decreases (theorem `bfsRun_isSome`). -/
def bfsRun (adjacency : List (String × List String)) (seen : List (String × Nat))
    (queue : List String) : Option (List String × List (String × Nat)) :=
  bfsAux adjacency (queue.length + countUnseen adjacency seen) seen queue []

/-- Connected-component decomposition: scan nodes in creation order, starting
a breadth-first walk at each unvisited node; a component lists its members in
dequeue order (resolved through `byId`). -/
def connectedComponents (nodes : List BackboneNode)
    (adjacency : List (String × List String)) : List (List BackboneNode) :=
  let byId := nodes.foldl (fun m n => setAssoc m n.id n) []
  (nodes.foldl (fun (acc : List (String × Nat) × List (List BackboneNode)) node =>
    if (getAssoc acc.1 node.id).isSome then acc
    else
      match bfsRun adjacency (acc.1 ++ [(node.id, 0)]) [node.id] with
      | some (order, seen) => (seen, acc.2 ++ [order.filterMap (getAssoc byId)])
      | none => (acc.1 ++ [(node.id, 0)], acc.2 ++ [[]])) ([], [])).2

/- ## Per-component layered placement -/

def hMarginOf (style : ChenStyle) : ℚ := jsOr style.hGap 260

def vMarginOf (style : ChenStyle) : ℚ := jsOr style.vGap 170

/-- Root choice: the first relationship-type node in component order, else
the component's first node. -/
def componentRoot (component : List BackboneNode) : Option BackboneNode :=
  match component.find? (fun n => n.type = NodeType.relationship) with
  | some r => some r
  | none => component.head?

/-- Depth map of a component: breadth-first distances from the root. -/
def componentDepthMap (adjacency : List (String × List String)) (root : BackboneNode) :
    List (String × Nat) :=
  match bfsRun adjacency [(root.id, 0)] [root.id] with
  | some (_, seen) => seen
  | none => [(root.id, 0)]

/-- `depth.get(node.id) || 0` (for a `Nat` depth, `0` and a missing entry
both yield `0`). -/
def depthOf (depths : List (String × Nat)) (n : BackboneNode) : Nat :=
  (getAssoc depths n.id).getD 0

def levelNodes (component : List BackboneNode) (depths : List (String × Nat)) (d : Nat) :
    List BackboneNode :=
  component.filter (fun n => depthOf depths n = d)

/-- `[...levels.keys()].sort((a, b) => a - b)`. -/
def orderedDepths (component : List BackboneNode) (depths : List (String × Nat)) : List Nat :=
  jsSort (fun a b => (a : ℚ) - (b : ℚ)) (dedupFirst (component.map (depthOf depths)))

def levelEnvX (component : List BackboneNode) (depths : List (String × Nat)) (d : Nat) : ℚ :=
  jsMaxList ((levelNodes component depths d).map (·.envelopeX))

/-- Scan producing the x of each level after the first:
`x(curr) = x(prev) + maxEnv(prev) + maxEnv(curr) + H`. -/
def xScan (H : ℚ) : ℚ → ℚ → List ℚ → List ℚ
  | _, _, [] => []
  | envPrev, xPrev, env :: envs =>
    let x := xPrev + envPrev + env + H
    x :: xScan H env x envs

/-- X-coordinates of the ordered levels; the first level sits at `0`.  The
source stores these in a map keyed by depth, writing each entry immediately
before reading it back for the next one, which equals this scan. -/
def xLevelPositions (H : ℚ) : List ℚ → List ℚ
  | [] => []
  | env :: envs => 0 :: xScan H env 0 envs

def xByDepthMap (component : List BackboneNode) (depths : List (String × Nat))
    (ds : List Nat) (H : ℚ) : List (Nat × ℚ) :=
  ds.zip (xLevelPositions H (ds.map (levelEnvX component depths)))

/-- Within-level ordering: stable sort by id under the locale-aware
comparison. -/
def sortLevel (l : List BackboneNode) : List BackboneNode :=
  jsSort (fun a b => localeCompareZh a.id b.id) l

/-- The vertical stacking loop: the first node's y is `0`; each subsequent
node's y adds both envelope half-heights plus the vertical margin. -/
def stackAux (V : ℚ) : BackboneNode → ℚ → List BackboneNode → List ℚ
  | _, _, [] => []
  | prev, y, c :: cs =>
    let y2 := y + prev.envelopeY + c.envelopeY + V
    y2 :: stackAux V c y2 cs

def stackYs (V : ℚ) : List BackboneNode → List ℚ
  | [] => []
  | n :: rest => 0 :: stackAux V n 0 rest

/-- Sort a level, stack it vertically, recenter around the midpoint of the
level's vertical span; returns each node's centered y keyed by id. -/
def levelPlacement (V : ℚ) (l : List BackboneNode) : List (String × ℚ) :=
  let lv := sortLevel l
  let ys := stackYs V lv
  let pairs := lv.zip ys
  let minY := jsMinList (pairs.map (fun p => p.2 - p.1.envelopeY))
  let maxY := jsMaxList (pairs.map (fun p => p.2 + p.1.envelopeY))
  let centerY := (minY + maxY) / 2
  pairs.map (fun p => (p.1.id, p.2 - centerY))

/-- Positions of one component's nodes (id, x, y), given the running
horizontal offset. -/
def componentPlacement (adjacency : List (String × List String)) (H V offsetX : ℚ)
    (component : List BackboneNode) (root : BackboneNode) : List (String × ℚ × ℚ) :=
  let depths := componentDepthMap adjacency root
  let ds := orderedDepths component depths
  let xmap := xByDepthMap component depths ds H
  ds.foldl (fun acc d =>
    let x := offsetX + (getAssoc xmap d).getD 0
    acc ++ (levelPlacement V (levelNodes component depths d)).map (fun p => (p.1, x, p.2))) []

/-- Layout of all components: each component is placed, then the running
offset advances past its horizontal span plus the component gap
(`round(H * 1.3)`). -/
def layoutComponents (adjacency : List (String × List String)) (H V : ℚ)
    (components : List (List BackboneNode)) : List (String × ℚ × ℚ) :=
  (components.foldl (fun (acc : ℚ × List (String × ℚ × ℚ)) component =>
    match componentRoot component with
    | none => acc
    | some root =>
      let ps := componentPlacement adjacency H V acc.1 component root
      let compMinX := jsMinList (component.map (fun n =>
        ((getAssoc ps n.id).getD (n.x, n.y)).1 - n.envelopeX))
      let compMaxX := jsMaxList (component.map (fun n =>
        ((getAssoc ps n.id).getD (n.x, n.y)).1 + n.envelopeX))
      (acc.1 + (compMaxX - compMinX) + jsRound (H * 1.3), acc.2 ++ ps)) (0, [])).2

/-- All backbone node ids, in creation order. -/
def backboneIds (model : ChenModel) : List String :=
  model.entities.map (fun e => e.id) ++ model.relationships.map (fun r => r.id)

/-- The adjacency relation and connector edges of a model under a style and
override map (the state after the second relationship pass). -/
def backboneAdjacencyEdges (model : ChenModel) (style : ChenStyle)
    (nodeOverrides : List (String × PartialChenNodeStyle)) :
    List (String × List String) × List EntityRelationshipEdge :=
  let nodes0 := initialBackboneNodes model style nodeOverrides
  buildAdjacencyEdges model (initialNodeById nodes0) (initialAdjacency nodes0)

structure BackboneLayout where
  nodes : List BackboneNode
  nodeById : List (String × BackboneNode)
  edges : List EntityRelationshipEdge

/-- The backbone layout engine.  The source mutates node objects in place;
here the computed positions are applied back to the creation-ordered node
list by id lookup, which coincides with the in-place update under the §3
model invariant that entity/relationship ids are unique.  Finally each
node's override offset is added on top of its computed position. -/
def buildBackboneLayout (model : ChenModel) (style : ChenStyle)
    (nodeOverrides : List (String × PartialChenNodeStyle)) : BackboneLayout :=
  let nodes0 := initialBackboneNodes model style nodeOverrides
  let ae := backboneAdjacencyEdges model style nodeOverrides
  let components := connectedComponents nodes0 ae.1
  let positions := layoutComponents ae.1 (hMarginOf style) (vMarginOf style) components
  let nodes1 := nodes0.map (fun n =>
    let p := (getAssoc positions n.id).getD (n.x, n.y)
    { n with x := p.1 + n.nodeStyle.offsetX, y := p.2 + n.nodeStyle.offsetY })
  { nodes := nodes1
    nodeById := nodes1.foldl (fun m n => setAssoc m n.id n) []
    edges := ae.2 }

/- ## Attribute placement engine -/

def attributesOverlap (cx cy rx ry : ℚ) (other : AttributeNode) : Bool :=
  decide (|cx - other.x| < rx + other.rx + 16) && decide (|cy - other.y| < ry + other.ry + 16)

def overlapsBackboneNode (cx cy rx ry : ℚ) (node : BackboneNode) : Bool :=
  decide (|cx - node.x| < node.width / 2 + rx + 24) &&
    decide (|cy - node.y| < node.height / 2 + ry + 24)

/-- One collision test of a candidate position against every other backbone
node and every already-placed attribute ellipse. -/
def placementHit (allNodes : List BackboneNode) (selfId : String)
    (placed : List AttributeNode) (x y rx ry : ℚ) : Bool :=
  (allNodes.any (fun other => decide (other.id ≠ selfId) && overlapsBackboneNode x y rx ry other)) ||
    (placed.any (fun p => attributesOverlap x y rx ry p))

/-- The up-to-18-step refinement loop: while the candidate overlaps, grow the
distance by `28 × ellipseScale` and nudge the angle by `±0.08` alternating
with step parity; stop as soon as no overlap is found or the budget runs out
(the final adjusted position is not re-checked). -/
def refineAttributePosition (t : Trig) (ellipseScale : ℚ) (allNodes : List BackboneNode)
    (node : BackboneNode) (placed : List AttributeNode) (rx ry : ℚ) :
    Nat → Nat → ℚ → ℚ → ℚ → ℚ → ℚ × ℚ
  | 0, _, _, _, x, y => (x, y)
  | fuel + 1, step, angle, dist, x, y =>
    if placementHit allNodes node.id placed x y rx ry then
      let dist2 := dist + 28 * ellipseScale
      let angle2 := angle + (if step % 2 = 0 then (0.08 : ℚ) else -0.08)
      refineAttributePosition t ellipseScale allNodes node placed rx ry fuel (step + 1)
        angle2 dist2 (node.x + t.cos angle2 * dist2) (node.y + t.sin angle2 * dist2)
    else (x, y)

/-- Radial attribute placement: collect blocked angles (directions toward
connector neighbors), choose candidate angles, place each attribute at
`orbitRadius + 0.16 × rx` from its owner and refine against collisions.  The
placed-attribute list accumulates across owners, exactly like the source's
single `attributeNodes` array. -/
def placeAttributeNodes (t : Trig) (layout : BackboneLayout) (style : ChenStyle) :
    List AttributeNode × List AttributeLinkEdge :=
  let neighborAngles0 : List (String × List ℚ) :=
    layout.nodes.foldl (fun m n => setAssoc m n.id []) []
  let neighborAngles := layout.edges.foldl (fun m edge =>
    match getAssoc layout.nodeById edge.entityId, getAssoc layout.nodeById edge.relationshipId with
    | some entityNode, some relationNode =>
      let entityAngle := t.atan2 (relationNode.y - entityNode.y) (relationNode.x - entityNode.x)
      let relationAngle := t.atan2 (entityNode.y - relationNode.y) (entityNode.x - relationNode.x)
      let m1 := match getAssoc m entityNode.id with
        | some l => setAssoc m entityNode.id (l ++ [entityAngle])
        | none => m
      match getAssoc m1 relationNode.id with
        | some l => setAssoc m1 relationNode.id (l ++ [relationAngle])
        | none => m1
    | _, _ => m) neighborAngles0
  layout.nodes.foldl (fun (acc : List AttributeNode × List AttributeLinkEdge) node =>
    let attrs := node.attributes
    if attrs.length = 0 then acc
    else
      let blockedAngles := (getAssoc neighborAngles node.id).getD []
      let plannedAngles := chooseAttributeAngles attrs.length blockedAngles
      attrs.enum.foldl (fun (acc2 : List AttributeNode × List AttributeLinkEdge) p =>
        let idx := p.1
        let attr := p.2
        let size := nodeSizeForAttribute attr.name attr.isPrimary style
        let angle := (plannedAngles.get? idx).getD
          (-jsPI / 2 + (idx : ℚ) * jsPI * 2 / (attrs.length : ℚ))
        let dist := node.orbitRadius + size.rx * 0.16
        let pos := refineAttributePosition t style.ellipseScale layout.nodes node acc2.1
          size.rx size.ry 18 0 angle dist (node.x + t.cos angle * dist)
          (node.y + t.sin angle * dist)
        (acc2.1 ++ [{ id := attr.id, parentId := node.id, x := pos.1, y := pos.2
                      rx := size.rx, ry := size.ry, label := size.label
                      isPrimary := attr.isPrimary }],
         acc2.2 ++ [{ fromId := node.id, toId := attr.id }])) acc) ([], [])

/- ## Scene composer -/

structure Bounds where
  minX : ℚ
  minY : ℚ
  maxX : ℚ
  maxY : ℚ

def nodeExtents (n : SceneNode) : Bounds :=
  match n with
  | SceneNode.backbone b =>
    { minX := b.x - b.width / 2, minY := b.y - b.height / 2
      maxX := b.x + b.width / 2, maxY := b.y + b.height / 2 }
  | SceneNode.attr a =>
    { minX := a.x - a.rx, minY := a.y - a.ry, maxX := a.x + a.rx, maxY := a.y + a.ry }

/-- Bounding extent of all shapes.  The source starts from `±Infinity` and
tests `Number.isFinite(minX)` afterwards; with all-finite coordinates that is
exactly: an empty node set yields the fixed fallback box `0,0,900,500`,
otherwise the fold of per-shape extents. -/
def sceneBounds (allNodes : List SceneNode) : Bounds :=
  match allNodes with
  | [] => { minX := 0, minY := 0, maxX := 900, maxY := 500 }
  | n :: rest => rest.foldl (fun acc m =>
      let e := nodeExtents m
      { minX := min acc.minX e.minX, minY := min acc.minY e.minY
        maxX := max acc.maxX e.maxX, maxY := max acc.maxY e.maxY }) (nodeExtents n)

def shiftSceneNode (sx sy : ℚ) : SceneNode → SceneNode
  | SceneNode.backbone b => SceneNode.backbone { b with x := b.x + sx, y := b.y + sy }
  | SceneNode.attr a => SceneNode.attr { a with x := a.x + sx, y := a.y + sy }

/-- Scene with its id-indexed node map (the source's `nodeById`). -/
structure SceneWithIndex where
  scene : Scene
  nodeById : List (String × SceneNode)

/-- Scene composition: merge backbone and attribute geometry, shift all
coordinates so the minimum bound lands on the fixed padding `90`, and derive
one cardinality label anchor per entity–relationship edge at 62% of the way
from the entity to the relationship. -/
def computeScene (t : Trig) (model : ChenModel) (style : ChenStyle)
    (nodeOverrides : List (String × PartialChenNodeStyle)) : SceneWithIndex :=
  let backbone := buildBackboneLayout model style nodeOverrides
  let attrs := placeAttributeNodes t backbone style
  let allNodes0 := backbone.nodes.map SceneNode.backbone ++ attrs.1.map SceneNode.attr
  let allEdges := backbone.edges.map SceneEdge.er ++ attrs.2.map SceneEdge.attrLink
  let b := sceneBounds allNodes0
  let padding : ℚ := 90
  let allNodes := allNodes0.map (shiftSceneNode (padding - b.minX) (padding - b.minY))
  let nodeById := allNodes.foldl (fun m n => setAssoc m n.nodeId n) []
  let cardinalityLabels := allEdges.foldl (fun acc e =>
    match e with
    | SceneEdge.attrLink _ => acc
    | SceneEdge.er edge =>
      match getAssoc nodeById edge.entityId, getAssoc nodeById edge.relationshipId with
      | some entity, some relation =>
        let frac : ℚ := 0.62
        acc ++ [{ text := edge.cardinality
                  x := entity.posX * (1 - frac) + relation.posX * frac
                  y := entity.posY * (1 - frac) + relation.posY * frac }]
      | _, _ => acc) []
  { scene :=
      { nodes := allNodes
        edges := allEdges
        cardinalityLabels := cardinalityLabels
        width := jsCeil (b.maxX - b.minX + padding * 2)
        height := jsCeil (b.maxY - b.minY + padding * 2) }
    nodeById := nodeById }

/- ## Diagram serializer -/

def svgHeader (w h : ℚ) : String :=
  "<svg xmlns=\"http://www.w3.org/2000/svg\" width=\"" ++ numToString w ++
    "\" height=\"" ++ numToString h ++ "\" viewBox=\"0 0 " ++ numToString w ++ " " ++
    numToString h ++ "\" role=\"img\" aria-label=\"Chen ER Diagram\">"

def svgStyleLines (lineWidth entityStroke relationStroke attrStroke labelFont attrFont cardFont : ℚ) :
    List String :=
  ["<style>",
   ".line\x7bstroke:#111;stroke-width:" ++ toFixed2 lineWidth ++
     ";fill:none;stroke-linecap:round;stroke-linejoin:round;shape-rendering:geometricPrecision;\x7d",
   ".entity\x7bstroke:#111;stroke-width:" ++ toFixed2 entityStroke ++
     ";shape-rendering:geometricPrecision;\x7d",
   ".relation\x7bstroke:#111;stroke-width:" ++ toFixed2 relationStroke ++
     ";stroke-linejoin:round;shape-rendering:geometricPrecision;\x7d",
   ".attr\x7bfill:#fff;stroke:#111;stroke-width:" ++ toFixed2 attrStroke ++
     ";shape-rendering:geometricPrecision;\x7d",
   ".node-shape\x7bcursor:grab;\x7d",
   ".node-hit\x7bfill:#000;fill-opacity:0;stroke:none;pointer-events:all;cursor:grab;\x7d",
   ".selected-node .node-shape\x7bstroke:#0f766e !important;filter:drop-shadow(0 0 1px #0f766e);\x7d",
   ".label\x7bfont-family:\x27PingFang SC\x27,\x27Microsoft YaHei\x27,sans-serif;font-size:" ++
     numToString labelFont ++
     "px;text-anchor:middle;dominant-baseline:middle;pointer-events:none;text-rendering:geometricPrecision;\x7d",
   ".attrLabel\x7bfill:#111;font-family:\x27PingFang SC\x27,\x27Microsoft YaHei\x27,sans-serif;font-size:" ++
     numToString attrFont ++
     "px;text-anchor:middle;dominant-baseline:middle;pointer-events:none;text-rendering:geometricPrecision;\x7d",
   ".pk\x7btext-decoration:underline;\x7d",
   ".card\x7bfill:#111;font-family:\x27PingFang SC\x27,\x27Microsoft YaHei\x27,sans-serif;font-size:" ++
     numToString cardFont ++
     "px;font-weight:600;text-anchor:middle;dominant-baseline:middle;pointer-events:none;text-rendering:geometricPrecision;\x7d",
   "</style>"]

def renderEdgeLines (sw : SceneWithIndex) : List String :=
  sw.scene.edges.foldl (fun acc e =>
    match e with
    | SceneEdge.er edge =>
      match getAssoc sw.nodeById edge.entityId, getAssoc sw.nodeById edge.relationshipId with
      | some entity, some relation =>
        acc ++ ["<line class=\"line edge-er\" data-edge-type=\"entityRelationship\" data-entity-id=\"" ++
          escapeXml edge.entityId ++ "\" data-relationship-id=\"" ++ escapeXml edge.relationshipId ++
          "\" x1=\"" ++ numToString entity.posX ++ "\" y1=\"" ++ numToString entity.posY ++
          "\" x2=\"" ++ numToString relation.posX ++ "\" y2=\"" ++ numToString relation.posY ++ "\" />"]
      | _, _ => acc
    | SceneEdge.attrLink edge =>
      match getAssoc sw.nodeById edge.fromId, getAssoc sw.nodeById edge.toId with
      | some fromNode, some toNode =>
        acc ++ ["<line class=\"line edge-attr\" data-edge-type=\"attributeLink\" data-from-id=\"" ++
          escapeXml edge.fromId ++ "\" data-to-id=\"" ++ escapeXml edge.toId ++
          "\" x1=\"" ++ numToString fromNode.posX ++ "\" y1=\"" ++ numToString fromNode.posY ++
          "\" x2=\"" ++ numToString toNode.posX ++ "\" y2=\"" ++ numToString toNode.posY ++ "\" />"]
      | _, _ => acc) []

def renderLabelLines (cardFont : ℚ) (labels : List CardinalityLabel) : List String :=
  labels.foldl (fun acc label =>
    let boxW := jsCeil (estimateTextWidth label.text cardFont + 16)
    acc ++ ["<rect x=\"" ++ numToString (label.x - boxW / 2) ++ "\" y=\"" ++
              numToString (label.y - 14) ++ "\" width=\"" ++ numToString boxW ++
              "\" height=\"28\" fill=\"#fff\" />",
            "<text class=\"card\" x=\"" ++ numToString label.x ++ "\" y=\"" ++
              numToString label.y ++ "\">" ++ escapeXml label.text ++ "</text>"]) []

def entityMarkup (entityStroke : ℚ) (selectedNodeId : Option String) (node : BackboneNode) :
    List String :=
  let HIT_PAD : ℚ := 12
  let isSelected := selectedNodeId = some node.id
  let strokeWidth := if node.nodeStyle.strokeWidth > 0 then node.nodeStyle.strokeWidth else entityStroke
  let strokeColor := if isSelected then "#0f766e" else "#111111"
  let fillColor := escapeXml node.nodeStyle.fill
  let textColor := escapeXml node.nodeStyle.textColor
  let entityClass := if isSelected then "entity node-shape selected-shape" else "entity node-shape"
  let groupClass := if isSelected then "selected-node" else "normal-node"
  let nodeId := escapeXml node.id
  let nodeName := escapeXml node.name
  ["<g class=\"" ++ groupClass ++ "\" data-node-id=\"" ++ nodeId ++
     "\" data-node-type=\"entity\" data-node-name=\"" ++ nodeName ++ "\">",
   "<rect class=\"node-hit\" x=\"" ++ numToString (node.x - node.width / 2 - HIT_PAD) ++
     "\" y=\"" ++ numToString (node.y - node.height / 2 - HIT_PAD) ++ "\" width=\"" ++
     numToString (node.width + HIT_PAD * 2) ++ "\" height=\"" ++
     numToString (node.height + HIT_PAD * 2) ++ "\" />",
   "<rect class=\"" ++ entityClass ++ "\" x=\"" ++ numToString (node.x - node.width / 2) ++
     "\" y=\"" ++ numToString (node.y - node.height / 2) ++ "\" width=\"" ++
     numToString node.width ++ "\" height=\"" ++ numToString node.height ++ "\" fill=\"" ++
     fillColor ++ "\" stroke=\"" ++ strokeColor ++ "\" stroke-width=\"" ++
     toFixed2 strokeWidth ++ "\" />",
   "<text class=\"label\" x=\"" ++ numToString node.x ++ "\" y=\"" ++ numToString node.y ++
     "\" fill=\"" ++ textColor ++ "\">" ++ nodeName ++ "</text>",
   "</g>"]

def relationshipMarkup (relationStroke : ℚ) (selectedNodeId : Option String)
    (node : BackboneNode) : List String :=
  let HIT_PAD : ℚ := 12
  let isSelected := selectedNodeId = some node.id
  let strokeWidth := if node.nodeStyle.strokeWidth > 0 then node.nodeStyle.strokeWidth else relationStroke
  let strokeColor := if isSelected then "#0f766e" else "#111111"
  let fillColor := escapeXml node.nodeStyle.fill
  let textColor := escapeXml node.nodeStyle.textColor
  let relationClass := if isSelected then "relation node-shape selected-shape" else "relation node-shape"
  let groupClass := if isSelected then "selected-node" else "normal-node"
  let nodeId := escapeXml node.id
  let nodeName := escapeXml node.name
  let points := numToString node.x ++ "," ++ numToString (node.y - node.height / 2) ++ " " ++
    numToString (node.x + node.width / 2) ++ "," ++ numToString node.y ++ " " ++
    numToString node.x ++ "," ++ numToString (node.y + node.height / 2) ++ " " ++
    numToString (node.x - node.width / 2) ++ "," ++ numToString node.y
  let hitPoints := numToString node.x ++ "," ++ numToString (node.y - node.height / 2 - HIT_PAD) ++
    " " ++ numToString (node.x + node.width / 2 + HIT_PAD) ++ "," ++ numToString node.y ++ " " ++
    numToString node.x ++ "," ++ numToString (node.y + node.height / 2 + HIT_PAD) ++ " " ++
    numToString (node.x - node.width / 2 - HIT_PAD) ++ "," ++ numToString node.y
  ["<g class=\"" ++ groupClass ++ "\" data-node-id=\"" ++ nodeId ++
     "\" data-node-type=\"relationship\" data-node-name=\"" ++ nodeName ++ "\">",
   "<polygon class=\"node-hit\" points=\"" ++ hitPoints ++ "\" />",
   "<polygon class=\"" ++ relationClass ++ "\" points=\"" ++ points ++ "\" fill=\"" ++
     fillColor ++ "\" stroke=\"" ++ strokeColor ++ "\" stroke-width=\"" ++
     toFixed2 strokeWidth ++ "\" />",
   "<text class=\"label\" x=\"" ++ numToString node.x ++ "\" y=\"" ++ numToString node.y ++
     "\" fill=\"" ++ textColor ++ "\">" ++ nodeName ++ "</text>",
   "</g>"]

def attributeMarkup (node : AttributeNode) : List String :=
  let attrId := escapeXml node.id
  let parentId := escapeXml node.parentId
  let pkClass := if node.isPrimary then "attrLabel pk" else "attrLabel"
  ["<g data-node-id=\"" ++ attrId ++ "\" data-node-type=\"attribute\" data-parent-id=\"" ++
     parentId ++ "\">",
   "<ellipse class=\"attr\" cx=\"" ++ numToString node.x ++ "\" cy=\"" ++ numToString node.y ++
     "\" rx=\"" ++ numToString node.rx ++ "\" ry=\"" ++ numToString node.ry ++ "\" />",
   "<text class=\"" ++ pkClass ++ "\" x=\"" ++ numToString node.x ++ "\" y=\"" ++
     numToString node.y ++ "\">" ++ escapeXml node.label ++ "</text>",
   "</g>"]

def renderNodeLines (entityStroke relationStroke : ℚ) (selectedNodeId : Option String)
    (nodes : List SceneNode) : List String :=
  nodes.foldl (fun acc n =>
    match n with
    | SceneNode.backbone b =>
      match b.type with
      | NodeType.entity => acc ++ entityMarkup entityStroke selectedNodeId b
      | NodeType.relationship => acc ++ relationshipMarkup relationStroke selectedNodeId b
    | SceneNode.attr a => acc ++ attributeMarkup a) []

/-- All output lines of the document, in draw order. -/
def renderLines (sw : SceneWithIndex) (style : ChenStyle) (selectedNodeId : Option String) :
    List String :=
  let lineWidth := jsOr style.lineWidth 2.8
  let entityStroke := max 1.8 (lineWidth * 1.35)
  let relationStroke := max 1.8 (lineWidth * 1.35)
  let attrStroke := max 1.2 (lineWidth * 1.05)
  let labelFont := max 12 (jsRound (22 * style.fontScale))
  let attrFont := max 11 (jsRound (20 * style.fontScale))
  let cardFont := max 11 (jsRound (22 * style.fontScale))
  [svgHeader sw.scene.width sw.scene.height] ++
    svgStyleLines lineWidth entityStroke relationStroke attrStroke labelFont attrFont cardFont ++
    renderEdgeLines sw ++
    renderLabelLines cardFont sw.scene.cardinalityLabels ++
    renderNodeLines entityStroke relationStroke selectedNodeId sw.scene.nodes ++
    ["</svg>"]

/-- `lines.join("\n")`. -/
def joinLines : List String → String
  | [] => ""
  | [l] => l
  | l :: rest => l ++ "\n" ++ joinLines rest

/-- `renderChenSvg`: normalize the style, resolve options, compute the scene
and serialize it; `lines.join("\n")`. -/
def renderChenSvg (t : Trig) (model : ChenModel) (styleInput : PartialChenStyle)
    (options : ChenRenderOptions) : String :=
  let style := normalizeStyle styleInput
  let nodeOverrides := options.nodeOverrides.getD []
  let selectedNodeId := match options.selectedNodeId with
    | some s => if s = "" then none else some s
    | none => none
  let sw := computeScene t model style nodeOverrides
  joinLines (renderLines sw style selectedNodeId)

/- ## Substring checking (for closed scenario statements) -/

def hasPrefixChars : List Char → List Char → Bool
  | _, [] => true
  | [], _ :: _ => false
  | a :: as, b :: bs => (a = b) && hasPrefixChars as bs

def containsChars : List Char → List Char → Bool
  | [], pat => pat.isEmpty
  | a :: as, pat => hasPrefixChars (a :: as) pat || containsChars as pat

/-- `s` contains `pattern` as a contiguous substring. -/
def strContains (s pattern : String) : Bool := containsChars s.data pattern.data

/- ## General lemmas: association lists -/

theorem getAssoc_mem {κ α : Type} [DecidableEq κ] :
    ∀ (l : List (κ × α)) (k : κ) (v : α), getAssoc l k = some v → (k, v) ∈ l := by
  intro l k v h
  induction l with
  | nil => simp [getAssoc] at h
  | cons p rest ih =>
    obtain ⟨k0, v0⟩ := p
    by_cases hk : k0 = k
    · subst hk
      simp [getAssoc] at h
      simp [h]
    · simp [getAssoc, hk] at h
      exact List.mem_cons_of_mem _ (ih h)

theorem getAssoc_append {κ α : Type} [DecidableEq κ] :
    ∀ (l1 l2 : List (κ × α)) (k : κ),
      getAssoc (l1 ++ l2) k =
        (match getAssoc l1 k with
         | some v => some v
         | none => getAssoc l2 k) := by
  intro l1 l2 k
  induction l1 with
  | nil => simp [getAssoc]
  | cons p rest ih =>
    obtain ⟨k0, v0⟩ := p
    by_cases hk : k0 = k
    · subst hk; simp [getAssoc]
    · simp [getAssoc, hk, ih]

/- ## General lemmas: the stable sort -/

theorem mem_insertBy {α : Type} (cmp : α → α → ℚ) (x : α) :
    ∀ (l : List α) (y : α), y ∈ insertBy cmp x l ↔ y = x ∨ y ∈ l := by
  intro l y
  induction l with
  | nil => simp [insertBy]
  | cons z zs ih =>
    by_cases h : cmp x z ≤ 0
    · simp only [insertBy, h, if_pos]
      simp only [List.mem_cons]
    · simp only [insertBy, h, if_neg, if_false]
      simp only [List.mem_cons, ih]
      tauto

theorem insertBy_perm {α : Type} (cmp : α → α → ℚ) (x : α) :
    ∀ l : List α, (insertBy cmp x l).Perm (x :: l) := by
  intro l
  induction l with
  | nil => simp [insertBy]
  | cons z zs ih =>
    by_cases h : cmp x z ≤ 0
    · simp [insertBy, h]
    · simp only [insertBy, h, if_neg]
      exact List.Perm.trans (List.Perm.cons z ih) (List.Perm.swap x z zs)

theorem jsSort_perm {α : Type} (cmp : α → α → ℚ) :
    ∀ l : List α, (jsSort cmp l).Perm l := by
  intro l
  induction l with
  | nil => simp [jsSort]
  | cons x xs ih =>
    exact List.Perm.trans (insertBy_perm cmp x (jsSort cmp xs)) (List.Perm.cons x ih)

theorem insertBy_pairwise {α : Type} (cmp : α → α → ℚ)
    (htrans : ∀ a b c, cmp a b ≤ 0 → cmp b c ≤ 0 → cmp a c ≤ 0)
    (htotal : ∀ a b, cmp a b ≤ 0 ∨ cmp b a ≤ 0) (x : α) :
    ∀ l : List α, List.Pairwise (fun a b => cmp a b ≤ 0) l →
      List.Pairwise (fun a b => cmp a b ≤ 0) (insertBy cmp x l) := by
  intro l hl
  induction l with
  | nil => simp [insertBy]
  | cons z zs ih =>
    rcases List.pairwise_cons.mp hl with ⟨hz, hzs⟩
    by_cases h : cmp x z ≤ 0
    · simp only [insertBy, h, if_pos]
      refine List.pairwise_cons.mpr ⟨?_, hl⟩
      intro y hy
      rcases List.mem_cons.mp hy with rfl | hy2
      · exact h
      · exact htrans x z y h (hz y hy2)
    · simp only [insertBy, h, if_neg]
      refine List.pairwise_cons.mpr ⟨?_, ih hzs⟩
      intro y hy
      rcases (mem_insertBy cmp x zs y).mp hy with rfl | hy2
      · rcases htotal y z with h2 | h2
        · exact absurd h2 h
        · exact h2
      · exact hz y hy2

theorem jsSort_pairwise {α : Type} (cmp : α → α → ℚ)
    (htrans : ∀ a b c, cmp a b ≤ 0 → cmp b c ≤ 0 → cmp a c ≤ 0)
    (htotal : ∀ a b, cmp a b ≤ 0 ∨ cmp b a ≤ 0) :
    ∀ l : List α, List.Pairwise (fun a b => cmp a b ≤ 0) (jsSort cmp l) := by
  intro l
  induction l with
  | nil => simp [jsSort]
  | cons x xs ih => exact insertBy_pairwise cmp htrans htotal x _ ih

/- ## General lemmas: the locale-aware comparison -/

theorem cmpCharList_self : ∀ l : List Char, cmpCharList l l = 0 := by
  intro l
  induction l with
  | nil => rfl
  | cons a as ih => simp [cmpCharList, lt_irrefl, ih]

theorem cmpCharList_neg : ∀ a b : List Char, cmpCharList a b = -cmpCharList b a := by
  intro a
  induction a with
  | nil => intro b; cases b <;> simp [cmpCharList]
  | cons x xs ih =>
    intro b
    cases b with
    | nil => simp [cmpCharList]
    | cons y ys =>
      rcases lt_trichotomy x y with h | h | h
      · have h1 : ¬ y < x := asymm h
        simp [cmpCharList, h, h1]
      · subst h
        simp [cmpCharList, lt_irrefl, ih ys]
      · have h1 : ¬ x < y := asymm h
        simp [cmpCharList, h, h1]

theorem cmpCharList_trans :
    ∀ a b c : List Char, cmpCharList a b ≤ 0 → cmpCharList b c ≤ 0 → cmpCharList a c ≤ 0 := by
  intro a
  induction a with
  | nil =>
    intro b c _ _
    cases c <;> simp [cmpCharList]
  | cons x xs ih =>
    intro b c hab hbc
    cases b with
    | nil =>
      simp only [cmpCharList] at hab
      norm_num at hab
    | cons y ys =>
      cases c with
      | nil =>
        simp only [cmpCharList] at hbc
        norm_num at hbc
      | cons z zs =>
        have hyx : ¬ x < y → ¬ y < x → x = y := by
          intro h1 h2
          rcases lt_trichotomy x y with h | h | h
          · exact absurd h h1
          · exact h
          · exact absurd h h2
        rcases lt_trichotomy x y with hxy | hxy | hxy
        · rcases lt_trichotomy y z with hyz | hyz | hyz
          · have : x < z := lt_trans hxy hyz
            simp [cmpCharList, this]
          · subst hyz
            simp [cmpCharList, hxy]
          · have h1 : ¬ y < z := asymm hyz
            simp only [cmpCharList, h1, if_neg, hyz, if_pos] at hbc
            norm_num at hbc
        · subst hxy
          rcases lt_trichotomy x z with hxz | hxz | hxz
          · simp [cmpCharList, hxz]
          · subst hxz
            simp only [cmpCharList, lt_irrefl, if_neg, if_false] at hab hbc ⊢
            exact ih ys zs hab hbc
          · have h1 : ¬ x < z := asymm hxz
            simp only [cmpCharList, h1, if_neg, hxz, if_pos] at hbc
            norm_num at hbc
        · have h1 : ¬ x < y := asymm hxy
          simp only [cmpCharList, h1, if_neg, hxy, if_pos] at hab
          norm_num at hab

theorem localeCompareZh_total :
    ∀ a b : String, localeCompareZh a b ≤ 0 ∨ localeCompareZh b a ≤ 0 := by
  intro a b
  rcases le_or_lt (localeCompareZh a b) 0 with h | h
  · exact Or.inl h
  · right
    rw [localeCompareZh, cmpCharList_neg]
    rw [localeCompareZh] at h
    linarith

/- ## General lemmas: vertical stacking -/

theorem stackAux_chain (V : ℚ) (hV : 0 < V) :
    ∀ (l : List BackboneNode) (prev : BackboneNode) (y : ℚ),
      0 ≤ prev.envelopeY → (∀ n ∈ l, 0 ≤ n.envelopeY) →
      List.Chain (· < ·) y (stackAux V prev y l) := by
  intro l
  induction l with
  | nil => intro prev y _ _; exact List.Chain.nil
  | cons c cs ih =>
    intro prev y hprev hl
    have hc : 0 ≤ c.envelopeY := hl c (List.mem_cons_self c cs)
    refine List.Chain.cons (by linarith) ?_
    exact ih c _ hc (fun n hn => hl n (List.mem_cons_of_mem _ hn))

theorem stackYs_pairwise (V : ℚ) (hV : 0 < V) (l : List BackboneNode)
    (hl : ∀ n ∈ l, 0 ≤ n.envelopeY) : List.Pairwise (· < ·) (stackYs V l) := by
  cases l with
  | nil => simp [stackYs]
  | cons n rest =>
    have hn : 0 ≤ n.envelopeY := hl n (List.mem_cons_self n rest)
    have hchain : List.Chain (· < ·) 0 (stackAux V n 0 rest) :=
      stackAux_chain V hV rest n 0 hn (fun m hm => hl m (List.mem_cons_of_mem _ hm))
    exact List.chain_iff_pairwise.mp hchain

/- ## General lemmas: zipping two pairwise lists -/

theorem pairwise_zip {α β : Type} {R : α → α → Prop} {S : β → β → Prop} :
    ∀ (l1 : List α) (l2 : List β), List.Pairwise R l1 → List.Pairwise S l2 →
      List.Pairwise (fun p q => R p.1 q.1 ∧ S p.2 q.2) (l1.zip l2) := by
  intro l1
  induction l1 with
  | nil => intro l2 _ _; simp
  | cons x xs ih =>
    intro l2 h1 h2
    cases l2 with
    | nil => simp
    | cons y ys =>
      rcases List.pairwise_cons.mp h1 with ⟨hx, hxs⟩
      rcases List.pairwise_cons.mp h2 with ⟨hy, hys⟩
      refine List.pairwise_cons.mpr ⟨?_, ih ys hxs hys⟩
      intro p hp
      rcases List.of_mem_zip hp with ⟨hp1, hp2⟩
      exact ⟨hx p.1 hp1, hy p.2 hp2⟩

/- ## Ordered association lookup -/

theorem getAssoc_pairwise_lt (a b : String) (ya yb : ℚ) :
    ∀ items : List (String × ℚ),
      List.Pairwise (fun p q => localeCompareZh p.1 q.1 ≤ 0 ∧ p.2 < q.2) items →
      localeCompareZh a b < 0 →
      getAssoc items a = some ya → getAssoc items b = some yb → ya < yb := by
  intro items
  induction items with
  | nil => intro _ _ h; simp [getAssoc] at h
  | cons p rest ih =>
    intro hp hab ha hb
    obtain ⟨k, v⟩ := p
    rcases List.pairwise_cons.mp hp with ⟨hhead, hrest⟩
    have hne : a ≠ b := by
      intro h
      subst h
      rw [localeCompareZh, cmpCharList_self] at hab
      exact lt_irrefl 0 hab
    by_cases hka : k = a
    · subst hka
      simp only [getAssoc, if_pos] at ha
      have hkb : k ≠ b := hne
      simp only [getAssoc, hkb, if_neg, if_false] at hb
      have hmem := getAssoc_mem rest b yb hb
      have := hhead (b, yb) hmem
      cases ha
      exact this.2
    · simp only [getAssoc, hka, if_neg, if_false] at ha
      by_cases hkb : k = b
      · subst hkb
        exfalso
        have hmem := getAssoc_mem rest a ya ha
        have h2 := (hhead (a, ya) hmem).1
        rw [localeCompareZh, cmpCharList_neg] at h2
        rw [localeCompareZh] at hab
        simp at h2
        linarith
      · simp only [getAssoc, hkb, if_neg, if_false] at hb
        exact ih hrest hab ha hb

/- ## Within-level order: the level placement is ordered by id -/

theorem levelPlacement_ordered (V : ℚ) (l : List BackboneNode) (a b : BackboneNode)
    (ya yb : ℚ) (hV : 0 < V) (henv : ∀ n ∈ l, (0 : ℚ) ≤ n.envelopeY)
    (hab : localeCompareZh a.id b.id < 0)
    (ha : getAssoc (levelPlacement V l) a.id = some ya)
    (hb : getAssoc (levelPlacement V l) b.id = some yb) : ya < yb := by
  have hcmp_trans : ∀ x y z : BackboneNode,
      localeCompareZh x.id y.id ≤ 0 → localeCompareZh y.id z.id ≤ 0 →
        localeCompareZh x.id z.id ≤ 0 := by
    intro x y z
    exact cmpCharList_trans _ _ _
  have hcmp_total : ∀ x y : BackboneNode,
      localeCompareZh x.id y.id ≤ 0 ∨ localeCompareZh y.id x.id ≤ 0 := by
    intro x y
    exact localeCompareZh_total _ _
  have hsorted := jsSort_pairwise (fun n m : BackboneNode => localeCompareZh n.id m.id)
    hcmp_trans hcmp_total l
  have henv2 : ∀ n ∈ sortLevel l, (0 : ℚ) ≤ n.envelopeY := by
    intro n hn
    exact henv n ((jsSort_perm _ l).mem_iff.mp hn)
  have hys := stackYs_pairwise V hV (sortLevel l) henv2
  have hzip := pairwise_zip (sortLevel l) (stackYs V (sortLevel l)) hsorted hys
  have hmapped : List.Pairwise (fun p q : String × ℚ => localeCompareZh p.1 q.1 ≤ 0 ∧ p.2 < q.2)
      (levelPlacement V l) := by
    have := List.Pairwise.map
      (f := fun p : BackboneNode × ℚ =>
        (p.1.id, p.2 - (jsMinList (((sortLevel l).zip (stackYs V (sortLevel l))).map
            (fun p => p.2 - p.1.envelopeY)) +
          jsMaxList (((sortLevel l).zip (stackYs V (sortLevel l))).map
            (fun p => p.2 + p.1.envelopeY))) / 2))
      (S := fun p q : String × ℚ => localeCompareZh p.1 q.1 ≤ 0 ∧ p.2 < q.2)
      (fun p q hpq => ⟨hpq.1, by have := hpq.2; simp; linarith⟩) hzip
    exact this
  exact getAssoc_pairwise_lt a.id b.id ya yb (levelPlacement V l) hmapped hab ha hb

/- ## Breadth-first walk termination -/

theorem getAssoc_append_single_ne {κ α : Type} [DecidableEq κ] (s0 : List (κ × α)) (n m : κ)
    (v : α) (h : m ≠ n) : getAssoc (s0 ++ [(n, v)]) m = getAssoc s0 m := by
  rw [getAssoc_append]
  cases hs : getAssoc s0 m with
  | some w => rfl
  | none =>
    simp only [getAssoc]
    rw [if_neg (fun hnm => h hnm.symm)]

theorem getAssoc_append_single_self {κ α : Type} [DecidableEq κ] (s0 : List (κ × α)) (n : κ)
    (v : α) (h : getAssoc s0 n = none) : getAssoc (s0 ++ [(n, v)]) n = some v := by
  rw [getAssoc_append, h]
  simp [getAssoc]

theorem count_unseen_insert {U : List String} (s0 : List (String × Nat)) (n : String) (v : Nat)
    (hU : U.Nodup) (hn : n ∈ U) (hnone : getAssoc s0 n = none) :
    (U.filter (fun m => (getAssoc (s0 ++ [(n, v)]) m).isNone)).length + 1 =
      (U.filter (fun m => (getAssoc s0 m).isNone)).length := by
  induction U with
  | nil => cases hn
  | cons u us ih =>
    rcases List.nodup_cons.mp hU with ⟨hu_nin, hus⟩
    by_cases hun : u = n
    · subst hun
      have h1 : (getAssoc (s0 ++ [(u, v)]) u).isNone = false := by
        rw [getAssoc_append_single_self s0 u v hnone]
        rfl
      have h2 : (getAssoc s0 u).isNone = true := by rw [hnone]; rfl
      have hcong : us.filter (fun m => (getAssoc (s0 ++ [(u, v)]) m).isNone) =
          us.filter (fun m => (getAssoc s0 m).isNone) := by
        apply List.filter_congr
        intro m hm
        rw [getAssoc_append_single_ne s0 u m v (fun he => hu_nin (he ▸ hm))]
      simp [List.filter_cons, h1, h2, hcong]
    · have hn_in : n ∈ us := by
        rcases List.mem_cons.mp hn with h | h
        · exact absurd h.symm hun
        · exact h
      have hsame : (getAssoc (s0 ++ [(n, v)]) u).isNone = (getAssoc s0 u).isNone := by
        rw [getAssoc_append_single_ne s0 n u v hun]
      by_cases hc : (getAssoc s0 u).isNone = true
      · simp only [List.filter_cons, hsame, hc, if_pos, List.length_cons]
        rw [Nat.succ_add]
        exact congrArg Nat.succ (ih hus hn_in)
      · simp only [List.filter_cons, hsame, hc, if_neg]
        exact ih hus hn_in

theorem mem_foldl_append_values :
    ∀ (l : List (String × List String)) (acc : List String) (v : String),
      (v ∈ acc ∨ ∃ p ∈ l, v ∈ p.2) → v ∈ l.foldl (fun a q => a ++ q.2) acc := by
  intro l
  induction l with
  | nil =>
    intro acc v h
    rcases h with h | ⟨p, hp, _⟩
    · exact h
    · cases hp
  | cons p rest ih =>
    intro acc v h
    simp only [List.foldl_cons]
    apply ih
    rcases h with h | ⟨q, hq, hv⟩
    · exact Or.inl (List.mem_append_left _ h)
    · rcases List.mem_cons.mp hq with rfl | hq2
      · exact Or.inl (List.mem_append_right _ hv)
      · exact Or.inr ⟨q, hq2, hv⟩

theorem mem_adjUniverse (adjacency : List (String × List String)) (id n : String)
    (h : n ∈ (getAssoc adjacency id).getD []) : n ∈ adjUniverse adjacency := by
  cases hg : getAssoc adjacency id with
  | none => rw [hg] at h; cases h
  | some s =>
    rw [hg] at h
    have hmem : (id, s) ∈ adjacency := getAssoc_mem adjacency id s hg
    rw [adjUniverse, List.mem_dedup]
    exact mem_foldl_append_values adjacency [] n (Or.inr ⟨(id, s), hmem, h⟩)

theorem adjUniverse_nodup (adjacency : List (String × List String)) :
    (adjUniverse adjacency).Nodup := by
  unfold adjUniverse
  exact List.nodup_dedup _

theorem bfsStepNeighbors_measure (adjacency : List (String × List String)) (d : Nat) :
    ∀ (ns : List String) (s0 : List (String × Nat)) (out0 : List String),
      (∀ n ∈ ns, n ∈ adjUniverse adjacency) →
      ((ns.foldl (fun acc n =>
          if (getAssoc acc.1 n).isSome then acc
          else (acc.1 ++ [(n, d + 1)], acc.2 ++ [n])) (s0, out0)).2.length +
        countUnseen adjacency
          (ns.foldl (fun acc n =>
            if (getAssoc acc.1 n).isSome then acc
            else (acc.1 ++ [(n, d + 1)], acc.2 ++ [n])) (s0, out0)).1) ≤
      out0.length + countUnseen adjacency s0 := by
  intro ns
  induction ns with
  | nil => intro s0 out0 _; simp
  | cons n rest ih =>
    intro s0 out0 hsub
    simp only [List.foldl_cons]
    by_cases hseen : (getAssoc s0 n).isSome
    · rw [if_pos hseen]
      exact ih s0 out0 (fun m hm => hsub m (List.mem_cons_of_mem _ hm))
    · rw [if_neg hseen]
      have hnone : getAssoc s0 n = none := Option.not_isSome_iff_eq_none.mp hseen
      have hkey := count_unseen_insert s0 n (d + 1) (adjUniverse_nodup adjacency)
        (hsub n (List.mem_cons_self n rest)) hnone
      have := ih (s0 ++ [(n, d + 1)]) (out0 ++ [n])
        (fun m hm => hsub m (List.mem_cons_of_mem _ hm))
      simp only [List.length_append, List.length_singleton] at this
      unfold countUnseen at hkey this ⊢
      omega

theorem bfsAux_isSome :
    ∀ (fuel : Nat) (adjacency : List (String × List String)) (seen : List (String × Nat))
      (queue order : List String),
      queue.length + countUnseen adjacency seen ≤ fuel →
      (bfsAux adjacency fuel seen queue order).isSome = true := by
  intro fuel
  induction fuel with
  | zero =>
    intro adjacency seen queue order h
    cases queue with
    | nil => rfl
    | cons id qs => simp at h
  | succ fuel ih =>
    intro adjacency seen queue order h
    cases queue with
    | nil => rfl
    | cons id qs =>
      simp only [bfsAux]
      by_cases hid : id = ""
      · rw [if_pos hid]
        apply ih
        simp only [List.length_cons] at h
        omega
      · rw [if_neg hid]
        apply ih
        have hmeas := bfsStepNeighbors_measure adjacency ((getAssoc seen id).getD 0)
          ((getAssoc adjacency id).getD []) seen []
          (fun m hm => mem_adjUniverse adjacency id m hm)
        simp only [bfsStepNeighbors]
        simp only [List.length_nil, Nat.zero_add] at hmeas
        simp only [List.length_append, List.length_cons] at h ⊢
        omega

/- ## X-position scan lemmas -/

theorem xScan_length (H : ℚ) :
    ∀ (envs : List ℚ) (e x : ℚ), (xScan H e x envs).length = envs.length := by
  intro envs
  induction envs with
  | nil => intro e x; rfl
  | cons env rest ih => intro e x; simp [xScan, ih]

theorem xScan_adjacent (H : ℚ) :
    ∀ (envs : List ℚ) (e x : ℚ) (i : Nat), i + 1 < (xScan H e x envs).length →
      (xScan H e x envs).getD (i + 1) 0 =
        (xScan H e x envs).getD i 0 + envs.getD i 0 + envs.getD (i + 1) 0 + H := by
  intro envs
  induction envs with
  | nil => intro e x i h; simp [xScan] at h
  | cons env rest ih =>
    intro e x i h
    cases i with
    | zero =>
      cases rest with
      | nil => simp [xScan] at h
      | cons r0 rs => simp [xScan]
    | succ j =>
      simp only [xScan, List.getD_cons_succ]
      have hlen : j + 1 < (xScan H env (x + e + env + H) rest).length := by
        simp only [xScan, List.length_cons] at h
        omega
      exact ih env (x + e + env + H) j hlen

theorem xLevelPositions_adjacent (H : ℚ) (envs : List ℚ) (i : Nat)
    (h : i + 1 < (xLevelPositions H envs).length) :
    (xLevelPositions H envs).getD (i + 1) 0 =
      (xLevelPositions H envs).getD i 0 + envs.getD i 0 + envs.getD (i + 1) 0 + H := by
  cases envs with
  | nil => simp [xLevelPositions] at h
  | cons e rest =>
    cases i with
    | zero =>
      cases rest with
      | nil => simp [xLevelPositions, xScan] at h
      | cons r0 rs => simp [xLevelPositions, xScan]
    | succ j =>
      simp only [xLevelPositions, List.getD_cons_succ]
      have hlen : j + 1 < (xScan H e 0 rest).length := by
        simp only [xLevelPositions, List.length_cons] at h
        omega
      exact xScan_adjacent H rest e 0 j hlen

/- ## Escaping: the sequential passes equal a per-character entity map -/

/-- Per-character escaping map: the net effect the five sequential
`replaceAll` passes are specified to have (each original character is
replaced by its entity reference independently; replacement output is never
re-escaped because `&` is handled first). -/
def escChar (c : Char) : List Char :=
  if c = Char.ofNat 38 then ("&amp;").data
  else if c = Char.ofNat 60 then ("&lt;").data
  else if c = Char.ofNat 62 then ("&gt;").data
  else if c = Char.ofNat 34 then ("&quot;").data
  else if c = Char.ofNat 39 then ("&apos;").data
  else [c]

theorem replaceAllChar_append (c : Char) (rep : List Char) :
    ∀ l1 l2 : List Char,
      replaceAllChar c rep (l1 ++ l2) = replaceAllChar c rep l1 ++ replaceAllChar c rep l2 := by
  intro l1 l2
  induction l1 with
  | nil => rfl
  | cons x xs ih => simp [replaceAllChar, ih]

/-- The five sequential passes on a character list (the body of `escapeXml`). -/
def escapePasses (l : List Char) : List Char :=
  replaceAllChar (Char.ofNat 39) ("&apos;".data)
    (replaceAllChar (Char.ofNat 34) ("&quot;".data)
      (replaceAllChar (Char.ofNat 62) ("&gt;".data)
        (replaceAllChar (Char.ofNat 60) ("&lt;".data)
          (replaceAllChar (Char.ofNat 38) ("&amp;".data) l))))

theorem escapeXml_eq_passes (s : String) : escapeXml s = String.mk (escapePasses s.data) := rfl

theorem escapePasses_append (l1 l2 : List Char) :
    escapePasses (l1 ++ l2) = escapePasses l1 ++ escapePasses l2 := by
  simp [escapePasses, replaceAllChar_append]

theorem escapePasses_singleton (x : Char) : escapePasses [x] = escChar x := by
  by_cases h1 : x = Char.ofNat 38
  · subst h1; rfl
  · by_cases h2 : x = Char.ofNat 60
    · subst h2; rfl
    · by_cases h3 : x = Char.ofNat 62
      · subst h3; rfl
      · by_cases h4 : x = Char.ofNat 34
        · subst h4; rfl
        · by_cases h5 : x = Char.ofNat 39
          · subst h5; rfl
          · simp [escapePasses, replaceAllChar, escChar, h1, h2, h3, h4, h5]

theorem escapePasses_eq_bind : ∀ l : List Char, escapePasses l = l.flatMap escChar := by
  intro l
  induction l with
  | nil => rfl
  | cons x xs ih =>
    have : x :: xs = [x] ++ xs := rfl
    rw [this, escapePasses_append, escapePasses_singleton, ih]
    rfl

/-- `escapeXml` replaces every occurrence of the five reserved characters by
its entity reference, independently per character (no double-escaping). -/
theorem escapeXml_char_map (s : String) : escapeXml s = String.mk (s.data.flatMap escChar) := by
  rw [escapeXml_eq_passes, escapePasses_eq_bind]

/- ## Envelope lower bounds -/

theorem normalizeNodeStyle_scale_nonneg (ov : Option PartialChenNodeStyle) :
    (0 : ℚ) ≤ (normalizeNodeStyle ov).scale := by
  show (0 : ℚ) ≤ max 0.6 (min 2.8 ((ov.bind (fun s => s.scale)).getD DEFAULT_CHEN_NODE_STYLE.scale))
  have : (0.6 : ℚ) ≤ max 0.6 (min 2.8 ((ov.bind (fun s => s.scale)).getD DEFAULT_CHEN_NODE_STYLE.scale)) :=
    le_max_left _ _
  linarith

theorem jsCeil_nonneg (q : ℚ) (h : 0 ≤ q) : 0 ≤ jsCeil q := by
  unfold jsCeil
  exact_mod_cast Int.ceil_nonneg h

theorem computeNodeEnvelope_envelopeY_lower (node : BackboneNode) (style : ChenStyle) :
    node.height / 2 + 24 ≤ (computeNodeEnvelope node style).envelopeY :=
  le_max_left _ _

theorem initialBackboneNodes_envelopeY (model : ChenModel) (style : ChenStyle)
    (o : List (String × PartialChenNodeStyle))
    (h1 : 0 ≤ style.entityScale) (h2 : 0 ≤ style.relationScale) :
    ∀ n ∈ initialBackboneNodes model style o, (24 : ℚ) ≤ n.envelopeY := by
  intro n hn
  rcases List.mem_append.mp hn with he | hr
  · rcases List.mem_map.mp he with ⟨e, _, rfl⟩
    have hs := normalizeNodeStyle_scale_nonneg (getAssoc o e.id)
    have hh : (0 : ℚ) ≤ (mkEntityNode style o e).height := by
      show (0 : ℚ) ≤ jsCeil (58 * (style.entityScale * (normalizeNodeStyle (getAssoc o e.id)).scale))
      exact jsCeil_nonneg _ (by positivity)
    have hlow := computeNodeEnvelope_envelopeY_lower
      { id := e.id, type := NodeType.entity, name := e.name
        width := (nodeSizeForEntity e.name style (normalizeNodeStyle (getAssoc o e.id)).scale).width
        height := (nodeSizeForEntity e.name style (normalizeNodeStyle (getAssoc o e.id)).scale).height
        attributes := e.attributes, endpoints := []
        nodeStyle := normalizeNodeStyle (getAssoc o e.id), x := 0, y := 0
        orbitRadius := 0, envelopeX := 0, envelopeY := 0 } style
    have heq : (mkEntityNode style o e).envelopeY =
        (computeNodeEnvelope
          { id := e.id, type := NodeType.entity, name := e.name
            width := (nodeSizeForEntity e.name style (normalizeNodeStyle (getAssoc o e.id)).scale).width
            height := (nodeSizeForEntity e.name style (normalizeNodeStyle (getAssoc o e.id)).scale).height
            attributes := e.attributes, endpoints := []
            nodeStyle := normalizeNodeStyle (getAssoc o e.id), x := 0, y := 0
            orbitRadius := 0, envelopeX := 0, envelopeY := 0 } style).envelopeY := rfl
    rw [heq]
    have hh2 : (0 : ℚ) ≤ (nodeSizeForEntity e.name style (normalizeNodeStyle (getAssoc o e.id)).scale).height := hh
    linarith [hlow]
  · rcases List.mem_map.mp hr with ⟨r, _, rfl⟩
    have hs := normalizeNodeStyle_scale_nonneg (getAssoc o r.id)
    have hh : (0 : ℚ) ≤ (mkRelationshipNode style o r).height := by
      show (0 : ℚ) ≤ max (64 * (style.relationScale * (normalizeNodeStyle (getAssoc o r.id)).scale))
        (jsCeil ((nodeSizeForRelationship r.name style (normalizeNodeStyle (getAssoc o r.id)).scale).width * 0.58))
      have : (0 : ℚ) ≤ 64 * (style.relationScale * (normalizeNodeStyle (getAssoc o r.id)).scale) := by positivity
      exact le_trans this (le_max_left _ _)
    have hlow := computeNodeEnvelope_envelopeY_lower
      { id := r.id, type := NodeType.relationship, name := r.name
        width := (nodeSizeForRelationship r.name style (normalizeNodeStyle (getAssoc o r.id)).scale).width
        height := (nodeSizeForRelationship r.name style (normalizeNodeStyle (getAssoc o r.id)).scale).height
        attributes := r.attributes, endpoints := r.endpoints
        nodeStyle := normalizeNodeStyle (getAssoc o r.id), x := 0, y := 0
        orbitRadius := 0, envelopeX := 0, envelopeY := 0 } style
    have heq : (mkRelationshipNode style o r).envelopeY =
        (computeNodeEnvelope
          { id := r.id, type := NodeType.relationship, name := r.name
            width := (nodeSizeForRelationship r.name style (normalizeNodeStyle (getAssoc o r.id)).scale).width
            height := (nodeSizeForRelationship r.name style (normalizeNodeStyle (getAssoc o r.id)).scale).height
            attributes := r.attributes, endpoints := r.endpoints
            nodeStyle := normalizeNodeStyle (getAssoc o r.id), x := 0, y := 0
            orbitRadius := 0, envelopeX := 0, envelopeY := 0 } style).envelopeY := rfl
    rw [heq]
    have hh2 : (0 : ℚ) ≤ (nodeSizeForRelationship r.name style (normalizeNodeStyle (getAssoc o r.id)).scale).height := hh
    linarith [hlow]

/- ## Envelope monotonicity (C5) -/

theorem maxAttrRx_append (l : List ChenAttribute) (a : ChenAttribute) (style : ChenStyle) :
    maxAttrRx (l ++ [a]) style =
      max (maxAttrRx l style) (nodeSizeForAttribute a.name a.isPrimary style).rx := by
  unfold maxAttrRx
  rw [List.foldl_append]
  simp

theorem maxAttrRy_append (l : List ChenAttribute) (a : ChenAttribute) (style : ChenStyle) :
    maxAttrRy (l ++ [a]) style =
      max (maxAttrRy l style) (nodeSizeForAttribute a.name a.isPrimary style).ry := by
  unfold maxAttrRy
  rw [List.foldl_append]
  simp

theorem orbitRadiusOf_append_mono (node : BackboneNode) (style : ChenStyle) (a : ChenAttribute)
    (hes : 0 ≤ style.ellipseScale)
    (hbound : 26 ≤ 0.12 * max node.width node.height + 96 * style.ellipseScale) :
    orbitRadiusOf node style ≤
      orbitRadiusOf { node with attributes := node.attributes ++ [a] } style := by
  unfold orbitRadiusOf
  dsimp only
  have hlen2 : (node.attributes ++ [a]).length > 0 := by simp
  rw [if_pos hlen2]
  by_cases hl : node.attributes.length = 0
  · rw [if_neg (by omega)]
    have h8 : ((((node.attributes ++ [a]).length * 8 : Nat)) : ℚ) = 8 := by
      simp [hl]
    rw [h8]
    have hmin : min (100 : ℚ) 8 = 8 := by norm_num
    rw [hmin]
    nlinarith [hbound]
  · rw [if_pos (by omega)]
    have hmin : min (100 : ℚ) ((node.attributes.length * 8 : Nat) : ℚ) ≤
        min (100 : ℚ) (((node.attributes ++ [a]).length * 8 : Nat) : ℚ) := by
      apply min_le_min le_rfl
      push_cast
      simp only [List.length_append, List.length_cons, List.length_nil]
      push_cast
      linarith
    nlinarith [mul_le_mul_of_nonneg_right hmin hes]

theorem computeNodeEnvelope_append_mono (node : BackboneNode) (style : ChenStyle)
    (a : ChenAttribute) (hes : 0 ≤ style.ellipseScale)
    (hbound : 26 ≤ 0.12 * max node.width node.height + 96 * style.ellipseScale) :
    (computeNodeEnvelope node style).orbitRadius ≤
        (computeNodeEnvelope { node with attributes := node.attributes ++ [a] } style).orbitRadius ∧
      (computeNodeEnvelope node style).envelopeX ≤
        (computeNodeEnvelope { node with attributes := node.attributes ++ [a] } style).envelopeX ∧
      (computeNodeEnvelope node style).envelopeY ≤
        (computeNodeEnvelope { node with attributes := node.attributes ++ [a] } style).envelopeY := by
  have horbit := orbitRadiusOf_append_mono node style a hes hbound
  have hrx : maxAttrRx node.attributes style ≤ maxAttrRx (node.attributes ++ [a]) style := by
    rw [maxAttrRx_append]
    exact le_max_left _ _
  have hry : maxAttrRy node.attributes style ≤ maxAttrRy (node.attributes ++ [a]) style := by
    rw [maxAttrRy_append]
    exact le_max_left _ _
  refine ⟨horbit, ?_, ?_⟩
  · show max (node.width / 2 + 24) _ ≤ max (node.width / 2 + 24) _
    exact max_le_max le_rfl (by dsimp only; linarith)
  · show max (node.height / 2 + 24) _ ≤ max (node.height / 2 + 24) _
    exact max_le_max le_rfl (by dsimp only; linarith)

/- ## Node-map lookup lemmas -/

theorem getAssoc_setAssoc_self {κ α : Type} [DecidableEq κ] :
    ∀ (m : List (κ × α)) (k : κ) (v : α), getAssoc (setAssoc m k v) k = some v := by
  intro m k v
  induction m with
  | nil => simp [setAssoc, getAssoc]
  | cons p rest ih =>
    obtain ⟨k0, v0⟩ := p
    by_cases h : k0 = k
    · subst h; simp [setAssoc, getAssoc]
    · simp [setAssoc, getAssoc, h, ih]

theorem getAssoc_setAssoc_ne {κ α : Type} [DecidableEq κ] :
    ∀ (m : List (κ × α)) (k k2 : κ) (v : α), k2 ≠ k →
      getAssoc (setAssoc m k v) k2 = getAssoc m k2 := by
  intro m k k2 v hne
  have hne2 : k ≠ k2 := Ne.symm hne
  induction m with
  | nil => simp [setAssoc, getAssoc, hne2]
  | cons p rest ih =>
    obtain ⟨k0, v0⟩ := p
    by_cases h : k0 = k
    · subst h
      simp only [setAssoc, if_pos]
      simp [getAssoc, hne2]
    · simp only [setAssoc, h, if_neg, if_false]
      by_cases h2 : k0 = k2
      · subst h2; simp [getAssoc]
      · simp [getAssoc, h2, ih]

theorem isSome_getAssoc_setAssoc {κ α : Type} [DecidableEq κ] (m : List (κ × α)) (k k2 : κ)
    (v : α) : (getAssoc (setAssoc m k v) k2).isSome = true ↔
      k2 = k ∨ (getAssoc m k2).isSome = true := by
  by_cases h : k2 = k
  · subst h
    simp [getAssoc_setAssoc_self]
  · rw [getAssoc_setAssoc_ne m k k2 v h]
    simp [h]

theorem mem_setAssoc {κ α : Type} [DecidableEq κ] :
    ∀ (m : List (κ × α)) (k : κ) (v : α) (p : κ × α),
      p ∈ setAssoc m k v → p = (k, v) ∨ p ∈ m := by
  intro m k v p hp
  induction m with
  | nil => simpa [setAssoc] using hp
  | cons q rest ih =>
    obtain ⟨k0, v0⟩ := q
    by_cases h : k0 = k
    · subst h
      simp only [setAssoc, if_pos] at hp
      rcases List.mem_cons.mp hp with rfl | hp2
      · exact Or.inl rfl
      · exact Or.inr (List.mem_cons_of_mem _ hp2)
    · simp only [setAssoc, h, if_neg, if_false] at hp
      rcases List.mem_cons.mp hp with rfl | hp2
      · exact Or.inr (List.mem_cons_self _ _)
      · rcases ih hp2 with h3 | h3
        · exact Or.inl h3
        · exact Or.inr (List.mem_cons_of_mem _ h3)

/-- Lookup in a map built by keyed insertion finds a key exactly when some
item has that key. -/
theorem isSome_foldl_setAssoc {α : Type} (f : α → String) :
    ∀ (l : List α) (m0 : List (String × α)) (k : String),
      (getAssoc (l.foldl (fun m n => setAssoc m (f n) n) m0) k).isSome = true ↔
        (getAssoc m0 k).isSome = true ∨ k ∈ l.map f := by
  intro l
  induction l with
  | nil => intro m0 k; simp
  | cons n rest ih =>
    intro m0 k
    simp only [List.foldl_cons, List.map_cons, List.mem_cons]
    rw [ih]
    rw [isSome_getAssoc_setAssoc]
    tauto

/-- Every value stored by keyed insertion carries its own key. -/
theorem keyed_foldl_setAssoc {α : Type} (f : α → String) :
    ∀ (l : List α) (m0 : List (String × α)),
      (∀ k v, getAssoc m0 k = some v → f v = k) →
      ∀ k v, getAssoc (l.foldl (fun m n => setAssoc m (f n) n) m0) k = some v → f v = k := by
  intro l
  induction l with
  | nil => intro m0 h0; exact h0
  | cons n rest ih =>
    intro m0 h0
    simp only [List.foldl_cons]
    apply ih
    intro k v hkv
    by_cases h : k = f n
    · subst h
      rw [getAssoc_setAssoc_self] at hkv
      cases hkv
      rfl
    · rw [getAssoc_setAssoc_ne _ _ _ _ h] at hkv
      exact h0 k v hkv

theorem initialBackboneNodes_ids (model : ChenModel) (style : ChenStyle)
    (o : List (String × PartialChenNodeStyle)) :
    (initialBackboneNodes model style o).map (fun n => n.id) = backboneIds model := by
  unfold initialBackboneNodes backboneIds
  rw [List.map_append, List.map_map, List.map_map]
  rfl

theorem isSome_initialNodeById (model : ChenModel) (style : ChenStyle)
    (o : List (String × PartialChenNodeStyle)) (k : String) :
    (getAssoc (initialNodeById (initialBackboneNodes model style o)) k).isSome = true ↔
      k ∈ backboneIds model := by
  unfold initialNodeById
  rw [isSome_foldl_setAssoc BackboneNode.id, initialBackboneNodes_ids]
  simp [getAssoc]

theorem id_initialNodeById (nodes : List BackboneNode) (k : String) (n : BackboneNode)
    (h : getAssoc (initialNodeById nodes) k = some n) : n.id = k := by
  exact keyed_foldl_setAssoc BackboneNode.id nodes [] (by intro k2 v h2; simp [getAssoc] at h2) k n h

/- ## Edge characterization (C6) -/

theorem endpoints_fold_edges (m : List (String × BackboneNode)) (ids : List String)
    (hm_some : ∀ k, (getAssoc m k).isSome = true ↔ k ∈ ids)
    (hm_id : ∀ k n, getAssoc m k = some n → n.id = k) (relNode : BackboneNode) :
    ∀ (eps : List ChenRelationshipEndpoint) (adj : List (String × List String))
      (es : List EntityRelationshipEdge),
      (eps.foldl (fun acc2 endpoint =>
        match getAssoc m endpoint.entityId with
        | none => acc2
        | some entityNode =>
          (addToSet (addToSet acc2.1 relNode.id entityNode.id) entityNode.id relNode.id,
           acc2.2 ++ [{ entityId := entityNode.id, relationshipId := relNode.id
                        cardinality := jsOrStr endpoint.cardinality "N" }])) (adj, es)).2 =
      es ++ (eps.filter (fun e => decide (e.entityId ∈ ids))).map
        (fun e => { entityId := e.entityId, relationshipId := relNode.id
                    cardinality := jsOrStr e.cardinality "N" }) := by
  intro eps
  induction eps with
  | nil => intro adj es; simp
  | cons ep rest ih =>
    intro adj es
    simp only [List.foldl_cons, List.filter_cons]
    cases hga : getAssoc m ep.entityId with
    | none =>
      have hnm : ep.entityId ∉ ids := by
        rw [← hm_some]
        rw [hga]
        simp
      simp only [hnm, decide_False]
      exact ih adj es
    | some en =>
      have hmem : ep.entityId ∈ ids := by
        rw [← hm_some, hga]
        rfl
      have hid : en.id = ep.entityId := hm_id _ _ hga
      simp only [hmem, decide_True, List.map_cons]
      rw [ih, hid]
      simp

theorem relationships_fold_edges (m : List (String × BackboneNode)) (ids : List String)
    (hm_some : ∀ k, (getAssoc m k).isSome = true ↔ k ∈ ids)
    (hm_id : ∀ k n, getAssoc m k = some n → n.id = k) :
    ∀ (rels : List ChenRelationship) (adj : List (String × List String))
      (es : List EntityRelationshipEdge),
      (∀ r ∈ rels, r.id ∈ ids) →
      (rels.foldl (fun acc rel =>
        match getAssoc m rel.id with
        | none => acc
        | some relNode =>
          rel.endpoints.foldl (fun acc2 endpoint =>
            match getAssoc m endpoint.entityId with
            | none => acc2
            | some entityNode =>
              (addToSet (addToSet acc2.1 relNode.id entityNode.id) entityNode.id relNode.id,
               acc2.2 ++ [{ entityId := entityNode.id, relationshipId := relNode.id
                            cardinality := jsOrStr endpoint.cardinality "N" }])) acc) (adj, es)).2 =
      es ++ rels.flatMap (fun r =>
        (r.endpoints.filter (fun e => decide (e.entityId ∈ ids))).map
          (fun e => { entityId := e.entityId, relationshipId := r.id
                      cardinality := jsOrStr e.cardinality "N" })) := by
  intro rels
  induction rels with
  | nil => intro adj es _; simp
  | cons r rest ih =>
    intro adj es hrels
    simp only [List.foldl_cons, List.flatMap_cons]
    have hrid : r.id ∈ ids := hrels r (List.mem_cons_self r rest)
    have hsome : (getAssoc m r.id).isSome = true := (hm_some r.id).mpr hrid
    cases hga : getAssoc m r.id with
    | none => rw [hga] at hsome; simp at hsome
    | some relNode =>
      have hid : relNode.id = r.id := hm_id _ _ hga
      have hinner := endpoints_fold_edges m ids hm_some hm_id relNode r.endpoints adj es
      have hrest := fun adj2 es2 => ih adj2 es2 (fun q hq => hrels q (List.mem_cons_of_mem _ hq))
      rcases hfold : (r.endpoints.foldl (fun acc2 endpoint =>
        match getAssoc m endpoint.entityId with
        | none => acc2
        | some entityNode =>
          (addToSet (addToSet acc2.1 relNode.id entityNode.id) entityNode.id relNode.id,
           acc2.2 ++ [{ entityId := entityNode.id, relationshipId := relNode.id
                        cardinality := jsOrStr endpoint.cardinality "N" }])) (adj, es)) with ⟨adj2, es2⟩
    
      rw [hfold] at hinner
      simp only at hinner
      rw [hid] at hinner
      simp only [hfold]
      rw [hrest adj2 es2]
      rw [hinner]
      simp [List.append_assoc]

/-- The edges a layout records: exactly one per endpoint whose `entityId`
matches some backbone node id (entity or relationship), with `"N"` defaulted
cardinality. -/
theorem buildBackboneLayout_edges (model : ChenModel) (style : ChenStyle)
    (o : List (String × PartialChenNodeStyle)) :
    (buildBackboneLayout model style o).edges =
      model.relationships.flatMap (fun r =>
        (r.endpoints.filter (fun e => decide (e.entityId ∈ backboneIds model))).map
          (fun e => { entityId := e.entityId, relationshipId := r.id
                      cardinality := jsOrStr e.cardinality "N" })) := by
  have h1 : (buildBackboneLayout model style o).edges =
      (backboneAdjacencyEdges model style o).2 := rfl
  rw [h1]
  unfold backboneAdjacencyEdges buildAdjacencyEdges
  have := relationships_fold_edges (initialNodeById (initialBackboneNodes model style o))
    (backboneIds model)
    (isSome_initialNodeById model style o)
    (fun k n h => id_initialNodeById _ k n h)
    model.relationships
    (initialAdjacency (initialBackboneNodes model style o)) []
    (fun r hr => by
      unfold backboneIds
      exact List.mem_append_right _ (List.mem_map.mpr ⟨r, hr, rfl⟩))
  simpa using this

/- ## Adjacency containment (C6) -/

/-- Every adjacency key is a backbone id and every stored neighbor is a
backbone id. -/
def adjWithin (ids : List String) (adj : List (String × List String)) : Prop :=
  ∀ p ∈ adj, p.1 ∈ ids ∧ ∀ v ∈ p.2, v ∈ ids

theorem getAssoc_mem_pair {κ α : Type} [DecidableEq κ] :
    ∀ (m : List (κ × α)) (k : κ) (v : α), getAssoc m k = some v → (k, v) ∈ m := by
  intro m k v h
  induction m with
  | nil => simp [getAssoc] at h
  | cons p rest ih =>
    obtain ⟨k0, v0⟩ := p
    by_cases hk : k0 = k
    · subst hk
      simp only [getAssoc, if_pos] at h
      cases h
      exact List.mem_cons_self _ _
    · simp only [getAssoc, hk, if_false] at h
      exact List.mem_cons_of_mem _ (ih h)

theorem addToSet_within (ids : List String) (adj : List (String × List String))
    (k v : String) (hadj : adjWithin ids adj) (hk : k ∈ ids) (hv : v ∈ ids) :
    adjWithin ids (addToSet adj k v) := by
  unfold addToSet
  cases hga : getAssoc adj k with
  | none => exact hadj
  | some s =>
    by_cases hc : s.contains v
    · simp only [hc, if_pos]
      exact hadj
    · simp only [hc, if_false]
      intro p hp
      rcases mem_setAssoc _ _ _ _ hp with rfl | hp2
      · refine ⟨hk, ?_⟩
        intro w hw
        rcases List.mem_append.mp hw with hw1 | hw2
        · exact ((hadj (k, s) (getAssoc_mem_pair adj k s hga)).2) w hw1
        · rcases List.mem_singleton.mp hw2 with rfl
          exact hv
      · exact hadj p hp2

theorem initialAdjacency_within_aux (ids : List String) :
    ∀ (nodes : List BackboneNode) (m0 : List (String × List String)),
      adjWithin ids m0 → (∀ n ∈ nodes, n.id ∈ ids) →
      adjWithin ids (nodes.foldl (fun m n => setAssoc m n.id ([] : List String)) m0) := by
  intro nodes
  induction nodes with
  | nil => intro m0 h0 _; exact h0
  | cons n rest ih =>
    intro m0 h0 hids
    simp only [List.foldl_cons]
    apply ih
    · intro p hp
      rcases mem_setAssoc _ _ _ _ hp with rfl | hp2
      · exact ⟨hids n (List.mem_cons_self n rest), by intro v hv; simp at hv⟩
      · exact h0 p hp2
    · intro q hq
      exact hids q (List.mem_cons_of_mem _ hq)

theorem endpoints_fold_adj (m : List (String × BackboneNode)) (ids : List String)
    (hm_some : ∀ k, (getAssoc m k).isSome = true ↔ k ∈ ids)
    (hm_id : ∀ k n, getAssoc m k = some n → n.id = k)
    (relNode : BackboneNode) (hrel : relNode.id ∈ ids) :
    ∀ (eps : List ChenRelationshipEndpoint) (adj : List (String × List String))
      (es : List EntityRelationshipEdge), adjWithin ids adj →
      adjWithin ids (eps.foldl (fun acc2 endpoint =>
        match getAssoc m endpoint.entityId with
        | none => acc2
        | some entityNode =>
          (addToSet (addToSet acc2.1 relNode.id entityNode.id) entityNode.id relNode.id,
           acc2.2 ++ [{ entityId := entityNode.id, relationshipId := relNode.id
                        cardinality := jsOrStr endpoint.cardinality "N" }])) (adj, es)).1 := by
  intro eps
  induction eps with
  | nil => intro adj es h; exact h
  | cons ep rest ih =>
    intro adj es h
    simp only [List.foldl_cons]
    cases hga : getAssoc m ep.entityId with
    | none =>
      simp only [hga]
      exact ih adj es h
    | some en =>
      have hmem : ep.entityId ∈ ids := by
        rw [← hm_some, hga]
        rfl
      have hid : en.id = ep.entityId := hm_id _ _ hga
      simp only [hga]
      apply ih
      apply addToSet_within
      · apply addToSet_within
        · exact h
        · exact hrel
        · rw [hid]; exact hmem
      · rw [hid]; exact hmem
      · exact hrel

theorem relationships_fold_adj (m : List (String × BackboneNode)) (ids : List String)
    (hm_some : ∀ k, (getAssoc m k).isSome = true ↔ k ∈ ids)
    (hm_id : ∀ k n, getAssoc m k = some n → n.id = k) :
    ∀ (rels : List ChenRelationship) (adj : List (String × List String))
      (es : List EntityRelationshipEdge), adjWithin ids adj →
      adjWithin ids (rels.foldl (fun acc rel =>
        match getAssoc m rel.id with
        | none => acc
        | some relNode =>
          rel.endpoints.foldl (fun acc2 endpoint =>
            match getAssoc m endpoint.entityId with
            | none => acc2
            | some entityNode =>
              (addToSet (addToSet acc2.1 relNode.id entityNode.id) entityNode.id relNode.id,
               acc2.2 ++ [{ entityId := entityNode.id, relationshipId := relNode.id
                            cardinality := jsOrStr endpoint.cardinality "N" }])) acc) (adj, es)).1 := by
  intro rels
  induction rels with
  | nil => intro adj es h; exact h
  | cons r rest ih =>
    intro adj es h
    simp only [List.foldl_cons]
    cases hga : getAssoc m r.id with
    | none =>
      simp only [hga]
      exact ih adj es h
    | some relNode =>
      have hmem : r.id ∈ ids := by
        rw [← hm_some, hga]
        rfl
      have hid : relNode.id = r.id := hm_id _ _ hga
      have hrel : relNode.id ∈ ids := by rw [hid]; exact hmem
      simp only [hga]
      have hinner := endpoints_fold_adj m ids hm_some hm_id relNode hrel r.endpoints adj es h
      rcases hfold : (r.endpoints.foldl (fun acc2 endpoint =>
        match getAssoc m endpoint.entityId with
        | none => acc2
        | some entityNode =>
          (addToSet (addToSet acc2.1 relNode.id entityNode.id) entityNode.id relNode.id,
           acc2.2 ++ [{ entityId := entityNode.id, relationshipId := relNode.id
                        cardinality := jsOrStr endpoint.cardinality "N" }])) (adj, es)) with ⟨adj2, es2⟩
    
      rw [hfold] at hinner
      simp only [hfold]
      exact ih adj2 es2 hinner

/-- No adjacency link ever references an id outside the backbone node set. -/
theorem backboneAdjacency_within (model : ChenModel) (style : ChenStyle)
    (o : List (String × PartialChenNodeStyle)) :
    adjWithin (backboneIds model) (backboneAdjacencyEdges model style o).1 := by
  unfold backboneAdjacencyEdges buildAdjacencyEdges
  apply relationships_fold_adj (initialNodeById (initialBackboneNodes model style o))
    (backboneIds model)
    (isSome_initialNodeById model style o)
    (fun k n h => id_initialNodeById _ k n h)
  unfold initialAdjacency
  apply initialAdjacency_within_aux
  · intro p hp
    simp at hp
  · intro n hn
    rw [← initialBackboneNodes_ids model style o]
    exact List.mem_map.mpr ⟨n, hn, rfl⟩

/- ## Scene label characterization (C6) -/

theorem buildBackboneLayout_nodes_ids (model : ChenModel) (style : ChenStyle)
    (o : List (String × PartialChenNodeStyle)) :
    (buildBackboneLayout model style o).nodes.map BackboneNode.id = backboneIds model := by
  unfold buildBackboneLayout
  dsimp only
  rw [List.map_map]
  exact initialBackboneNodes_ids model style o

theorem edge_endpoints_in_ids (model : ChenModel) (style : ChenStyle)
    (o : List (String × PartialChenNodeStyle)) :
    ∀ e ∈ (buildBackboneLayout model style o).edges,
      e.entityId ∈ backboneIds model ∧ e.relationshipId ∈ backboneIds model := by
  intro e he
  rw [buildBackboneLayout_edges] at he
  obtain ⟨r, hr, he2⟩ := List.mem_flatMap.mp he
  obtain ⟨ep, hep, rfl⟩ := List.mem_map.mp he2
  have hfil := List.mem_filter.mp hep
  constructor
  · exact of_decide_eq_true hfil.2
  · unfold backboneIds
    exact List.mem_append_right _ (List.mem_map.mpr ⟨r, hr, rfl⟩)

theorem mem_scene_ids (bnodes : List BackboneNode) (anodes : List AttributeNode)
    (sx sy : ℚ) (k : String) (hk : k ∈ bnodes.map BackboneNode.id) :
    k ∈ ((bnodes.map SceneNode.backbone ++ anodes.map SceneNode.attr).map
      (shiftSceneNode sx sy)).map SceneNode.nodeId := by
  obtain ⟨n, hn, rfl⟩ := List.mem_map.mp hk
  refine List.mem_map.mpr ⟨shiftSceneNode sx sy (SceneNode.backbone n), ?_, rfl⟩
  exact List.mem_map.mpr ⟨SceneNode.backbone n,
    List.mem_append_left _ (List.mem_map.mpr ⟨n, hn, rfl⟩), rfl⟩

theorem scene_nodeById_isSome (t : Trig) (model : ChenModel) (style : ChenStyle)
    (o : List (String × PartialChenNodeStyle)) (k : String) (hk : k ∈ backboneIds model) :
    (getAssoc (computeScene t model style o).nodeById k).isSome = true := by
  unfold computeScene
  dsimp only
  rw [isSome_foldl_setAssoc SceneNode.nodeId]
  refine Or.inr ?_
  apply mem_scene_ids
  rw [buildBackboneLayout_nodes_ids]
  exact hk

theorem labels_fold_attrLink_id (nb : List (String × SceneNode)) :
    ∀ (ls : List AttributeLinkEdge) (acc : List CardinalityLabel),
      (ls.map SceneEdge.attrLink).foldl (fun acc e =>
        match e with
        | SceneEdge.attrLink _ => acc
        | SceneEdge.er edge =>
          match getAssoc nb edge.entityId, getAssoc nb edge.relationshipId with
          | some entity, some relation =>
            let frac : ℚ := 0.62
            acc ++ [{ text := edge.cardinality
                      x := entity.posX * (1 - frac) + relation.posX * frac
                      y := entity.posY * (1 - frac) + relation.posY * frac }]
          | _, _ => acc) acc = acc := by
  intro ls
  induction ls with
  | nil => intro acc; rfl
  | cons l rest ih =>
    intro acc
    simp only [List.map_cons, List.foldl_cons]
    exact ih acc

theorem labels_fold_er_texts (nb : List (String × SceneNode)) :
    ∀ (es : List EntityRelationshipEdge) (acc : List CardinalityLabel),
      (∀ e ∈ es, (getAssoc nb e.entityId).isSome = true ∧
        (getAssoc nb e.relationshipId).isSome = true) →
      ((es.map SceneEdge.er).foldl (fun acc e =>
        match e with
        | SceneEdge.attrLink _ => acc
        | SceneEdge.er edge =>
          match getAssoc nb edge.entityId, getAssoc nb edge.relationshipId with
          | some entity, some relation =>
            let frac : ℚ := 0.62
            acc ++ [{ text := edge.cardinality
                      x := entity.posX * (1 - frac) + relation.posX * frac
                      y := entity.posY * (1 - frac) + relation.posY * frac }]
          | _, _ => acc) acc).map CardinalityLabel.text =
      acc.map CardinalityLabel.text ++ es.map EntityRelationshipEdge.cardinality := by
  intro es
  induction es with
  | nil => intro acc _; simp
  | cons e rest ih =>
    intro acc h
    obtain ⟨h1, h2⟩ := h e (List.mem_cons_self e rest)
    cases hga1 : getAssoc nb e.entityId with
    | none => rw [hga1] at h1; simp at h1
    | some entity =>
    cases hga2 : getAssoc nb e.relationshipId with
    | none => rw [hga2] at h2; simp at h2
    | some relation =>
    simp only [List.map_cons, List.foldl_cons, hga1, hga2]
    rw [ih _ (fun q hq => h q (List.mem_cons_of_mem _ hq))]
    simp

/-- Exactly one cardinality label per recorded edge, carrying the edge
cardinality text. -/
theorem computeScene_label_texts (t : Trig) (model : ChenModel) (style : ChenStyle)
    (o : List (String × PartialChenNodeStyle)) :
    ((computeScene t model style o).scene.cardinalityLabels).map CardinalityLabel.text =
      (buildBackboneLayout model style o).edges.map EntityRelationshipEdge.cardinality := by
  have hH : ∀ e ∈ (buildBackboneLayout model style o).edges,
      (getAssoc (computeScene t model style o).nodeById e.entityId).isSome = true ∧
      (getAssoc (computeScene t model style o).nodeById e.relationshipId).isSome = true := by
    intro e he
    obtain ⟨h1, h2⟩ := edge_endpoints_in_ids model style o e he
    exact ⟨scene_nodeById_isSome t model style o _ h1,
      scene_nodeById_isSome t model style o _ h2⟩
  unfold computeScene at hH ⊢
  dsimp only at hH ⊢
  rw [List.foldl_append]
  rw [labels_fold_attrLink_id]
  rw [labels_fold_er_texts _ _ _ hH]
  simp

/- ## Concrete fixtures for witnesses and counterexamples -/

set_option maxRecDepth 100000
set_option maxHeartbeats 4000000

def emptyModel : ChenModel := { entities := [], relationships := [] }

def emptyScene : SceneWithIndex :=
  { scene := { nodes := [], edges := [], cardinalityLabels := [], width := 1080, height := 680 }
    nodeById := [] }

def c7model : ChenModel :=
  { entities := [{ id := "e1", name := "E"
                   attributes := [{ id := "a1", name := "<script>&\"\x27", isPrimary := false }] }]
    relationships := [] }

def c7EntityNode : BackboneNode :=
  { id := "e1", type := NodeType.entity, name := "E"
    width := 120, height := 58
    attributes := [{ id := "a1", name := "<script>&\"\x27", isPrimary := false }]
    endpoints := []
    nodeStyle := { scale := 1, offsetX := 0, offsetY := 0, strokeWidth := 0
                   fill := "#ffffff", textColor := "#111111" }
    x := mkRat 14941414441500891 97656250000000
    y := mkRat 233187492067488191 781250000000000
    orbitRadius := mkRat 852 5
    envelopeX := mkRat 1247 5
    envelopeY := mkRat 1072 5 }

def c7AttrNode : AttributeNode :=
  { id := "a1", parentId := "e1", x := 153, y := 118, rx := 63, ry := 28
    label := "<script>&\"\x27", isPrimary := false }

def c7Scene : SceneWithIndex :=
  { scene :=
      { nodes := [SceneNode.backbone c7EntityNode, SceneNode.attr c7AttrNode]
        edges := [SceneEdge.attrLink { fromId := "e1", toId := "a1" }]
        cardinalityLabels := []
        width := 306
        height := 418 }
    nodeById := [("e1", SceneNode.backbone c7EntityNode), ("a1", SceneNode.attr c7AttrNode)] }

def c2model : ChenModel :=
  { entities := [{ id := "b", name := "A", attributes := [] },
                 { id := "a", name := "B", attributes := [] }]
    relationships := [{ id := "r", name := "R"
                        endpoints := [{ entityId := "b", cardinality := "" },
                                      { entityId := "a", cardinality := "" }]
                        attributes := [] }] }

def c2adj : List (String × List String) :=
  (backboneAdjacencyEdges c2model DEFAULT_CHEN_STYLE []).1

/-- Breadth-first depth map of the first (only) component of `c2model`, from
the root the engine picks (the relationship node `r`). -/
def c2depths : Option (List (String × Nat)) :=
  ((connectedComponents (initialBackboneNodes c2model DEFAULT_CHEN_STYLE []) c2adj).head?.bind
    componentRoot).map (componentDepthMap c2adj)

def c2na : BackboneNode :=
  { id := "a", type := NodeType.entity, name := "B", width := 0, height := 0
    attributes := [], endpoints := []
    nodeStyle := { scale := 1, offsetX := 0, offsetY := 0, strokeWidth := 0
                   fill := "#ffffff", textColor := "#111111" }
    x := 0, y := 0, orbitRadius := 0, envelopeX := 0, envelopeY := 0 }

def c2nb : BackboneNode := { c2na with id := "b", name := "A" }

def c3model : ChenModel :=
  { entities := [{ id := "users", name := "users", attributes := [] },
                 { id := "orders", name := "orders", attributes := [] }]
    relationships := [{ id := "places", name := "places"
                        endpoints := [{ entityId := "users", cardinality := "1" },
                                      { entityId := "orders", cardinality := "N" }]
                        attributes := [] }] }

def c3adj : List (String × List String) :=
  (backboneAdjacencyEdges c3model DEFAULT_CHEN_STYLE []).1

/-- Breadth-first depth map of the only component of `c3model`, from the root
the engine picks (the relationship node `places`). -/
def c3depths : Option (List (String × Nat)) :=
  ((connectedComponents (initialBackboneNodes c3model DEFAULT_CHEN_STYLE []) c3adj).head?.bind
    componentRoot).map (componentDepthMap c3adj)

def c4input : PartialChenStyleJ :=
  { entityScale := none, ellipseScale := some JNum.nan, hGap := some (JNum.num 7) }

def c4nanStyle : PartialChenStyleJ := { entityScale := some JNum.nan }

def c5node : BackboneNode :=
  { id := "n", type := NodeType.entity, name := "n", width := 100, height := 100
    attributes := [], endpoints := []
    nodeStyle := { scale := 1, offsetX := 0, offsetY := 0, strokeWidth := 0
                   fill := "#ffffff", textColor := "#111111" }
    x := 0, y := 0, orbitRadius := 0, envelopeX := 0, envelopeY := 0 }

def c5attr : ChenAttribute := { id := "a", name := "x", isPrimary := false }

def c5bad : BackboneNode := { c5node with width := 50, height := 50 }

def c5style0 : ChenStyle := { DEFAULT_CHEN_STYLE with ellipseScale := 0 }

def c6model : ChenModel :=
  { entities := []
    relationships := [{ id := "r1", name := "R1"
                        endpoints := [{ entityId := "r2", cardinality := "1" }]
                        attributes := [] },
                      { id := "r2", name := "R2", endpoints := [], attributes := [] }] }

def c9model : ChenModel :=
  { entities := [{ id := "e", name := "E", attributes := [] }]
    relationships := [{ id := "r", name := "R"
                        endpoints := [{ entityId := "e", cardinality := "1" },
                                      { entityId := "e", cardinality := "N" }]
                        attributes := [] }] }

def c10style : ChenStyle := { DEFAULT_CHEN_STYLE with hGap := 0 }

def c10wstyle : ChenStyle := { DEFAULT_CHEN_STYLE with hGap := 0, vGap := 0 }

/- ## Substring scanning lemmas -/

theorem hasPrefixChars_append (l l2 pat : List Char) (h : hasPrefixChars l pat = true) :
    hasPrefixChars (l ++ l2) pat = true := by
  induction pat generalizing l with
  | nil => simp [hasPrefixChars]
  | cons b bs ih =>
    cases l with
    | nil => simp [hasPrefixChars] at h
    | cons a as =>
      simp only [hasPrefixChars, Bool.and_eq_true] at h ⊢
      exact ⟨h.1, ih as h.2⟩

theorem containsChars_append_left (l1 l2 pat : List Char) (h : containsChars l1 pat = true)
    (hne : pat ≠ []) : containsChars (l1 ++ l2) pat = true := by
  induction l1 with
  | nil =>
    simp only [containsChars] at h
    exact absurd (List.isEmpty_iff.mp h) hne
  | cons a as ih =>
    simp only [containsChars, Bool.or_eq_true] at h ⊢
    cases h with
    | inl hp => exact Or.inl (hasPrefixChars_append _ _ _ hp)
    | inr hc => exact Or.inr (ih hc)

theorem containsChars_append_right (l1 l2 pat : List Char) (h : containsChars l2 pat = true) :
    containsChars (l1 ++ l2) pat = true := by
  induction l1 with
  | nil => simpa using h
  | cons a as ih =>
    simp only [containsChars, Bool.or_eq_true]
    exact Or.inr ih

theorem strContains_joinLines_of_mem (lines : List String) (l pat : String)
    (hm : l ∈ lines) (hc : strContains l pat = true) (hne : pat.data ≠ []) :
    strContains (joinLines lines) pat = true := by
  induction lines with
  | nil => cases hm
  | cons x xs ih =>
    cases xs with
    | nil =>
      rcases List.mem_singleton.mp hm with rfl
      simpa [joinLines] using hc
    | cons y ys =>
      show strContains (x ++ "\n" ++ joinLines (y :: ys)) pat = true
      show containsChars ((x ++ "\n" ++ joinLines (y :: ys)).data) pat.data = true
      rw [String.data_append, String.data_append]
      rcases List.mem_cons.mp hm with rfl | hm
      · rw [List.append_assoc]
        exact containsChars_append_left _ _ _ hc hne
      · exact containsChars_append_right _ _ _ (ih hm)

/- ## The claims -/

/-- Claim C1: the whole render is deterministic — two calls of
`renderChenSvg` on equal (model, style input, render options) triples return
identical output strings; the function reads no state beyond its
arguments (it is a pure function of them, with the trigonometric primitives
a fixed explicit parameter). -/
theorem claim_C1 (t : Trig) (model1 model2 : ChenModel) (s1 s2 : PartialChenStyle)
    (o1 o2 : ChenRenderOptions) (hm : model1 = model2) (hs : s1 = s2) (ho : o1 = o2) :
    renderChenSvg t model1 s1 o1 = renderChenSvg t model2 s2 o2 := by
  rw [hm, hs, ho]

/-- Witness for C1 at a concrete input. -/
theorem claim_C1_witness :
    renderChenSvg jsTrig emptyModel {} {} = renderChenSvg jsTrig emptyModel {} {} :=
  claim_C1 jsTrig emptyModel emptyModel {} {} {} {} rfl rfl rfl

/-- Claim C2 (corrected): within a level, the stacking order is the
locale-aware comparison of node IDS, not of display names — if
`a.id` compares before `b.id`, node `a` gets the smaller stacked
y-coordinate (given a positive vertical margin and nonnegative envelope
half-heights, as the engine always supplies). -/
theorem claim_C2 (V : ℚ) (l : List BackboneNode) (a b : BackboneNode) (ya yb : ℚ)
    (hV : 0 < V) (henv : ∀ n ∈ l, (0 : ℚ) ≤ n.envelopeY)
    (hab : localeCompareZh a.id b.id < 0)
    (ha : getAssoc (levelPlacement V l) a.id = some ya)
    (hb : getAssoc (levelPlacement V l) b.id = some yb) : ya < yb :=
  levelPlacement_ordered V l a b ya yb hV henv hab ha hb

/-- Witness for C2 at a concrete two-node level. -/
theorem claim_C2_witness : (0 : ℚ) < 10 ∧ localeCompareZh c2na.id c2nb.id < 0 ∧
    (-5 : ℚ) < 5 := by
  refine ⟨by norm_num, of_decide_eq_true (by with_unfolding_all rfl), ?_⟩
  apply claim_C2 10 [c2nb, c2na] c2na c2nb (-5) 5
  · norm_num
  · intro n hn
    rcases List.mem_cons.mp hn with rfl | hn
    · norm_num [c2nb, c2na]
    · rcases List.mem_singleton.mp hn with rfl
      norm_num [c2na]
  · exact of_decide_eq_true (by with_unfolding_all rfl)
  · with_unfolding_all rfl
  · with_unfolding_all rfl

/-- Counterexample to C2 as worded: in `c2model` the nodes with ids `b`, `a`
carry names `A`, `B`; both sit at depth 1 of the same component, yet the
node named `A` (id `b`) gets the LARGER y (329/2) and the node named `B`
(id `a`) the smaller (-329/2), because the sort key is the id, not the name. -/
theorem claim_C2_counterexample :
    localeCompareZh "A" "B" < 0 ∧
    c2depths.map (fun d => (getAssoc d "a", getAssoc d "b")) = some (some 1, some 1) ∧
    (getAssoc (buildBackboneLayout c2model DEFAULT_CHEN_STYLE []).nodeById "b").map
      (fun n => (n.name, n.x, n.y)) = some ("A", 404, mkRat 329 2) ∧
    (getAssoc (buildBackboneLayout c2model DEFAULT_CHEN_STYLE []).nodeById "a").map
      (fun n => (n.name, n.x, n.y)) = some ("B", 404, mkRat (-329) 2) ∧
    (mkRat (-329) 2 : ℚ) < mkRat 329 2 := by
  refine ⟨of_decide_eq_true (by with_unfolding_all rfl), by with_unfolding_all rfl,
    by with_unfolding_all rfl, by with_unfolding_all rfl,
    of_decide_eq_true (by with_unfolding_all rfl)⟩

/-- Claim C3 (corrected): in the two-entity model, `places` is the root at
depth 0 while `users` and `orders` BOTH get depth 1 (not "0 and 1 in some
order"); they share one x-coordinate (813/2) and are separated VERTICALLY by
the sum of their envelope half-heights plus the vertical gap
(102 + 102 + 125 = 329); the cardinality labels on the users and orders
connectors read "1" and "N" respectively. -/
theorem claim_C3 :
    c3depths.map (fun d => (getAssoc d "places", getAssoc d "users", getAssoc d "orders")) =
      some (some 0, some 1, some 1) ∧
    (getAssoc (buildBackboneLayout c3model DEFAULT_CHEN_STYLE []).nodeById "users").map
      (fun n => (n.x, n.y, n.envelopeY)) = some (mkRat 813 2, mkRat 329 2, 102) ∧
    (getAssoc (buildBackboneLayout c3model DEFAULT_CHEN_STYLE []).nodeById "orders").map
      (fun n => (n.x, n.y, n.envelopeY)) = some (mkRat 813 2, mkRat (-329) 2, 102) ∧
    (mkRat 329 2 - mkRat (-329) 2 : ℚ) = 102 + 102 + DEFAULT_CHEN_STYLE.vGap ∧
    (buildBackboneLayout c3model DEFAULT_CHEN_STYLE []).edges =
      [{ entityId := "users", relationshipId := "places", cardinality := "1" },
       { entityId := "orders", relationshipId := "places", cardinality := "N" }] ∧
    ((computeScene jsTrig c3model DEFAULT_CHEN_STYLE []).scene.cardinalityLabels).map
      CardinalityLabel.text = ["1", "N"] := by
  have he : (buildBackboneLayout c3model DEFAULT_CHEN_STYLE []).edges =
      [{ entityId := "users", relationshipId := "places", cardinality := "1" },
       { entityId := "orders", relationshipId := "places", cardinality := "N" }] := by
    with_unfolding_all rfl
  refine ⟨by with_unfolding_all rfl, by with_unfolding_all rfl, by with_unfolding_all rfl,
    by with_unfolding_all rfl, he, ?_⟩
  rw [computeScene_label_texts, he]
  rfl

/-- Counterexample to C3 as worded: `users` and `orders` get the SAME depth
(both 1) and the same x-coordinate, so their horizontal distance is 0,
not at least the claimed 102 + 102 + hGap. -/
theorem claim_C3_counterexample :
    c3depths.map (fun d => (getAssoc d "users", getAssoc d "orders")) =
      some (some 1, some 1) ∧
    (getAssoc (buildBackboneLayout c3model DEFAULT_CHEN_STYLE []).nodeById "users").map
      (fun n => n.x) = some (mkRat 813 2) ∧
    (getAssoc (buildBackboneLayout c3model DEFAULT_CHEN_STYLE []).nodeById "orders").map
      (fun n => n.x) = some (mkRat 813 2) ∧
    ¬(102 + 102 + DEFAULT_CHEN_STYLE.hGap ≤ (mkRat 813 2 - mkRat 813 2 : ℚ)) := by
  refine ⟨by with_unfolding_all rfl, by with_unfolding_all rfl, by with_unfolding_all rfl, ?_⟩
  norm_num [sub_self, DEFAULT_CHEN_STYLE]

/-- Claim C4 (corrected): `normalizeStyle` is total and defaults each numeric
field to its documented default when the field is ABSENT; a field that is
present is passed through unchanged — including `NaN`, which is NOT replaced
by the default (the `??` fallback fires only on absent fields and
`Number` preserves `NaN`). -/
theorem claim_C4 (s : PartialChenStyleJ) :
    ((s.entityScale = none → (normalizeStyleJ s).entityScale = JNum.num 1) ∧
      (∀ x, s.entityScale = some x → (normalizeStyleJ s).entityScale = x)) ∧
    ((s.relationScale = none → (normalizeStyleJ s).relationScale = JNum.num 1.25) ∧
      (∀ x, s.relationScale = some x → (normalizeStyleJ s).relationScale = x)) ∧
    ((s.ellipseScale = none → (normalizeStyleJ s).ellipseScale = JNum.num 1) ∧
      (∀ x, s.ellipseScale = some x → (normalizeStyleJ s).ellipseScale = x)) ∧
    ((s.hGap = none → (normalizeStyleJ s).hGap = JNum.num 200) ∧
      (∀ x, s.hGap = some x → (normalizeStyleJ s).hGap = x)) ∧
    ((s.vGap = none → (normalizeStyleJ s).vGap = JNum.num 125) ∧
      (∀ x, s.vGap = some x → (normalizeStyleJ s).vGap = x)) ∧
    ((s.lineWidth = none → (normalizeStyleJ s).lineWidth = JNum.num 2.8) ∧
      (∀ x, s.lineWidth = some x → (normalizeStyleJ s).lineWidth = x)) ∧
    ((s.fontScale = none → (normalizeStyleJ s).fontScale = JNum.num 1) ∧
      (∀ x, s.fontScale = some x → (normalizeStyleJ s).fontScale = x)) := by
  refine ⟨⟨fun h => ?_, fun x h => ?_⟩, ⟨fun h => ?_, fun x h => ?_⟩,
    ⟨fun h => ?_, fun x h => ?_⟩, ⟨fun h => ?_, fun x h => ?_⟩,
    ⟨fun h => ?_, fun x h => ?_⟩, ⟨fun h => ?_, fun x h => ?_⟩,
    ⟨fun h => ?_, fun x h => ?_⟩⟩
  all_goals simp [normalizeStyleJ, DEFAULT_CHEN_STYLE, h]

/-- Witness for C4: an absent field defaults, a `NaN` field passes through,
a numeric field passes through. -/
theorem claim_C4_witness :
    (normalizeStyleJ c4input).entityScale = JNum.num 1 ∧
    (normalizeStyleJ c4input).ellipseScale = JNum.nan ∧
    (normalizeStyleJ c4input).hGap = JNum.num 7 := by
  refine ⟨(claim_C4 c4input).1.1 rfl, ?_, ?_⟩
  · exact (claim_C4 c4input).2.2.1.2 JNum.nan rfl
  · exact (claim_C4 c4input).2.2.2.1.2 (JNum.num 7) rfl

/-- Counterexample to C4 as worded: a `NaN` entity scale is NOT replaced by
the default 1 — it passes through as `NaN`. -/
theorem claim_C4_counterexample :
    (normalizeStyleJ c4nanStyle).entityScale = JNum.nan ∧ JNum.nan ≠ JNum.num 1 :=
  ⟨rfl, fun h => JNum.noConfusion h⟩

/-- Claim C5 (corrected): appending one attribute never decreases the orbit
radius or the envelope extents PROVIDED the ellipse scale is nonnegative and
`26 ≤ 0.12 × max(width, height) + 96 × ellipseScale` (true for all default
and slider-reachable styles); without that bound the zero-to-one attribute
step can shrink the orbit, because the engine switches from the
`max × 0.5 + 26` empty formula to the `max × 0.62 + 88·es + min(100, 8n)·es`
formula. -/
theorem claim_C5 (node : BackboneNode) (style : ChenStyle) (a : ChenAttribute)
    (hes : 0 ≤ style.ellipseScale)
    (hbound : 26 ≤ 0.12 * max node.width node.height + 96 * style.ellipseScale) :
    (computeNodeEnvelope node style).orbitRadius ≤
        (computeNodeEnvelope { node with attributes := node.attributes ++ [a] } style).orbitRadius ∧
      (computeNodeEnvelope node style).envelopeX ≤
        (computeNodeEnvelope { node with attributes := node.attributes ++ [a] } style).envelopeX ∧
      (computeNodeEnvelope node style).envelopeY ≤
        (computeNodeEnvelope { node with attributes := node.attributes ++ [a] } style).envelopeY :=
  computeNodeEnvelope_append_mono node style a hes hbound

/-- Witness for C5 at a 100 by 100 node under the default style. -/
theorem claim_C5_witness :
    (0 : ℚ) ≤ DEFAULT_CHEN_STYLE.ellipseScale ∧
    (26 : ℚ) ≤ 0.12 * max c5node.width c5node.height + 96 * DEFAULT_CHEN_STYLE.ellipseScale ∧
    ((computeNodeEnvelope c5node DEFAULT_CHEN_STYLE).orbitRadius ≤
        (computeNodeEnvelope { c5node with attributes := c5node.attributes ++ [c5attr] }
          DEFAULT_CHEN_STYLE).orbitRadius ∧
      (computeNodeEnvelope c5node DEFAULT_CHEN_STYLE).envelopeX ≤
        (computeNodeEnvelope { c5node with attributes := c5node.attributes ++ [c5attr] }
          DEFAULT_CHEN_STYLE).envelopeX ∧
      (computeNodeEnvelope c5node DEFAULT_CHEN_STYLE).envelopeY ≤
        (computeNodeEnvelope { c5node with attributes := c5node.attributes ++ [c5attr] }
          DEFAULT_CHEN_STYLE).envelopeY) := by
  refine ⟨by norm_num [DEFAULT_CHEN_STYLE], by norm_num [DEFAULT_CHEN_STYLE, c5node, max_self], ?_⟩
  exact claim_C5 c5node DEFAULT_CHEN_STYLE c5attr (by norm_num [DEFAULT_CHEN_STYLE])
    (by norm_num [DEFAULT_CHEN_STYLE, c5node, max_self])

/-- Counterexample to C5 as worded: with ellipse scale 0 and a 50 by 50 node,
going from zero attributes to one DECREASES the orbit radius (51 to 31) and
the envelope extents (67 to 49). -/
theorem claim_C5_counterexample :
    orbitRadiusOf c5bad c5style0 = 51 ∧
    orbitRadiusOf { c5bad with attributes := [c5attr] } c5style0 = 31 ∧
    (computeNodeEnvelope c5bad c5style0).envelopeX = 67 ∧
    (computeNodeEnvelope { c5bad with attributes := [c5attr] } c5style0).envelopeX = 49 ∧
    (31 : ℚ) < 51 ∧ (49 : ℚ) < 67 := by
  refine ⟨by with_unfolding_all rfl, by with_unfolding_all rfl, by with_unfolding_all rfl,
    by with_unfolding_all rfl, by norm_num, by norm_num⟩

/-- Claim C6 (corrected): an endpoint whose `entityId` matches no BACKBONE
NODE id (neither an entity nor a relationship) is silently dropped — it
produces no edge, no adjacency link, and no cardinality label — and the
recorded edges are exactly the endpoints whose `entityId` does match some
backbone node, with `"N"`-defaulted cardinality and one scene label per
recorded edge.  An endpoint that matches an existing RELATIONSHIP id also
produces an edge, contrary to the entity-only wording. -/
theorem claim_C6 (model : ChenModel) (style : ChenStyle)
    (o : List (String × PartialChenNodeStyle)) :
    (buildBackboneLayout model style o).edges =
      model.relationships.flatMap (fun r =>
        (r.endpoints.filter (fun e => decide (e.entityId ∈ backboneIds model))).map
          (fun e => { entityId := e.entityId, relationshipId := r.id
                      cardinality := jsOrStr e.cardinality "N" })) ∧
    adjWithin (backboneIds model) (backboneAdjacencyEdges model style o).1 ∧
    ∀ t : Trig,
      ((computeScene t model style o).scene.cardinalityLabels).map CardinalityLabel.text =
        (buildBackboneLayout model style o).edges.map EntityRelationshipEdge.cardinality :=
  ⟨buildBackboneLayout_edges model style o, backboneAdjacency_within model style o,
   fun t => computeScene_label_texts t model style o⟩

/-- Counterexample to C6 as worded: in `c6model` the endpoint references
`r2`, which is no entity (there are none) but IS a relationship id — and the
edge is still produced rather than dropped. -/
theorem claim_C6_counterexample :
    (buildBackboneLayout c6model DEFAULT_CHEN_STYLE []).edges =
      [{ entityId := "r2", relationshipId := "r1", cardinality := "1" }] ∧
    c6model.entities.map (fun e => e.id) = [] :=
  ⟨by with_unfolding_all rfl, rfl⟩

/-- Claim C7: `escapeXml` rewrites every character through the five-entity
table (each of the characters 38, 60, 62, 34 and 39 becomes its entity
reference, all other characters stay; mapping characters one at a time is
exactly the source's five sequential passes with the ampersand pass first,
so no double escaping occurs), and the attribute named with all five
reserved characters renders with the fully escaped label text in the output
document. -/
theorem claim_C7 :
    (∀ s : String, escapeXml s = String.mk (s.data.flatMap escChar)) ∧
    strContains (renderChenSvg jsTrig c7model {} {})
      "&lt;script&gt;&amp;&quot;&apos;" = true := by
  refine ⟨escapeXml_char_map, ?_⟩
  have hns : normalizeStyle {} = DEFAULT_CHEN_STYLE := rfl
  have hsw : computeScene jsTrig c7model DEFAULT_CHEN_STYLE [] = c7Scene := by
    with_unfolding_all rfl
  have h2 : renderChenSvg jsTrig c7model {} {} =
      joinLines (renderLines c7Scene DEFAULT_CHEN_STYLE none) := by
    simp only [renderChenSvg, hns, hsw, Option.getD]
  rw [h2]
  apply strContains_joinLines_of_mem _
    ("<text class=\"attrLabel\" x=\"153\" y=\"118\">&lt;script&gt;&amp;&quot;&apos;</text>")
  · show _ ∈ renderLines c7Scene DEFAULT_CHEN_STYLE none
    exact of_decide_eq_true (by with_unfolding_all rfl)
  · with_unfolding_all rfl
  · decide

/-- Claim C8: the empty model renders without failing, onto the fallback
bounds 0,0,900,500 plus the padding 90 on each side — canvas exactly
1080 by 680 for EVERY style, and the output document's root carries those
dimensions. -/
theorem claim_C8 :
    (∀ (t : Trig) (s : ChenStyle) (o : List (String × PartialChenNodeStyle)),
      (computeScene t emptyModel s o).scene.width = 1080 ∧
      (computeScene t emptyModel s o).scene.height = 680) ∧
    strContains (renderChenSvg jsTrig emptyModel {} {}) "width=\"1080\" height=\"680\"" = true ∧
    (1080 : ℚ) = 900 + 2 * 90 ∧ (680 : ℚ) = 500 + 2 * 90 := by
  refine ⟨?_, ?_, by norm_num, by norm_num⟩
  · intro t s o
    have h : computeScene t emptyModel s o = emptyScene := by
      simp only [computeScene, buildBackboneLayout, initialBackboneNodes, initialNodeById,
        initialAdjacency, buildAdjacencyEdges, connectedComponents, layoutComponents,
        placeAttributeNodes, sceneBounds, emptyModel, List.map_nil, List.foldl_nil,
        List.nil_append, List.append_nil]
      with_unfolding_all rfl
    rw [h]
    exact ⟨rfl, rfl⟩
  · have hsw : computeScene jsTrig emptyModel DEFAULT_CHEN_STYLE [] = emptyScene := by
      with_unfolding_all rfl
    have h2 : renderChenSvg jsTrig emptyModel {} {} =
        joinLines (renderLines emptyScene DEFAULT_CHEN_STYLE none) := by
      simp only [renderChenSvg, show normalizeStyle {} = DEFAULT_CHEN_STYLE from rfl, hsw,
        Option.getD]
    rw [h2]
    apply strContains_joinLines_of_mem _ (svgHeader 1080 680)
    · show _ ∈ renderLines emptyScene DEFAULT_CHEN_STYLE none
      exact of_decide_eq_true (by with_unfolding_all rfl)
    · with_unfolding_all rfl
    · decide

/-- Claim C9: the breadth-first walk always terminates successfully — the
fuel the engine model grants (queue length plus the count of ids not yet
seen) is always sufficient, because each id is seen at most once before
being enqueued; in particular the self-referencing model (both endpoints of
`r` point at `e`) decomposes into the single component `[e, r]`. -/
theorem claim_C9 :
    (∀ (adjacency : List (String × List String)) (seen : List (String × Nat))
      (queue : List String), (bfsRun adjacency seen queue).isSome = true) ∧
    (connectedComponents (initialBackboneNodes c9model DEFAULT_CHEN_STYLE [])
      (backboneAdjacencyEdges c9model DEFAULT_CHEN_STYLE []).1).map
        (fun comp => comp.map (fun n => n.id)) = [["e", "r"]] := by
  refine ⟨?_, by with_unfolding_all rfl⟩
  intro adjacency seen queue
  unfold bfsRun
  exact bfsAux_isSome _ adjacency seen queue [] le_rfl

/-- Claim C10: a zero (or `NaN`) horizontal gap falls back to the margin 260
(vertical: 170), which differ from the documented defaults 200 and 125; with
`hGap := 0` the second level of the two-entity model sits at
`0 + 209/2 + 102 + 260 = 933/2`, i.e. the spacing is computed with margin
260, not 0. -/
theorem claim_C10 (style : ChenStyle) (h : style.hGap = 0) (h2 : style.vGap = 0) :
    hMarginOf style = 260 ∧ vMarginOf style = 170 ∧
    jsOrJ JNum.nan 260 = 260 ∧ jsOrJ JNum.nan 170 = 170 ∧
    DEFAULT_CHEN_STYLE.hGap = 200 ∧ DEFAULT_CHEN_STYLE.vGap = 125 ∧
    (getAssoc (buildBackboneLayout c3model c10style []).nodeById "places").map
      (fun n => (n.x, n.envelopeX)) = some (0, mkRat 209 2) ∧
    (getAssoc (buildBackboneLayout c3model c10style []).nodeById "users").map
      (fun n => (n.x, n.envelopeX)) = some (mkRat 933 2, 102) ∧
    (mkRat 933 2 : ℚ) = 0 + mkRat 209 2 + 102 + 260 := by
  refine ⟨by simp [hMarginOf, jsOr, h], by simp [vMarginOf, jsOr, h2], rfl, rfl, rfl, rfl,
    by with_unfolding_all rfl, by with_unfolding_all rfl, by with_unfolding_all rfl⟩

/-- Witness for C10 at the all-zero-gap style. -/
theorem claim_C10_witness :
    c10wstyle.hGap = 0 ∧ c10wstyle.vGap = 0 ∧
    hMarginOf c10wstyle = 260 ∧ vMarginOf c10wstyle = 170 := by
  refine ⟨rfl, rfl, ?_, ?_⟩
  · exact (claim_C10 c10wstyle rfl rfl).1
  · exact (claim_C10 c10wstyle rfl rfl).2.1
